import Mathlib

/-!
# banjo: term factory, value model, template wrapping, type categorisation

A shallow embedding of the parts of the banjo front end that the
specification talks about:

* `Hashed_unique_factory.make` and the seven constraint builders
  (`builder.cpp`),
* the type builders and `Builder::get_qualified_type` (`builder.cpp`),
* `Value`, its constructors and extractors (`value.hpp`),
* `Value::get_boolean` and the two `Value::accept` methods (`value.hpp`),
* `is_value_type` (`ast.cpp`),
* `Parser::templatize_declaration`, `define_entity`, `define_concept` and the
  definition actions of the parser (`act-decl.cpp`),
* the builders of unsupported constructs and
  `Builder::get_function_type(Decl_list const&, Type&)` (`builder.cpp`),
* `Parser::on_type_alias` (`sema_id.cpp`).

Nodes are heap objects in the C++ code and the specification talks about
reference equality, so every store of nodes is a list in allocation order and
a reference to a node is its position in that list (`Addr`).  Nodes are never
freed or moved, so the position identifies the node for the whole run.

All definitions come first, the theorems follow.
-/

namespace banjo

/-! ## Definitions -/

deriving instance DecidableEq for Except

/-- A reference to a node: the position of the node in its store. -/
abbrev Addr := Nat

/-- The ways a call can stop without returning a result: a failed `assert`,
the three lingo abort macros used in the sources (`lingo_unreachable`,
`lingo_unimplemented`, `lingo_unhandled`), a visitor that has no overload for
the variant it is applied to, a read of a union member that is not the active
one, a pointer that points to no object, a failed `cast<T>`, and a thrown
`Lookup_error` with its message, the one condition of these that a caller can
catch. -/
inductive Failure where
  | assertion
  | unreachable
  | unimplemented
  | unhandled
  | no_overload
  | inactive_member
  | invalid_pointer
  | bad_cast
  | lookup_error (msg : String)
  deriving DecidableEq, Repr

/-! ### The hashed unique factory (`builder.cpp`, lines 14-61) -/

/-- The two free functions `Hash<T>` and `Eq<T>` forward to: `hash_value` and
`is_equivalent`.  Both are declared in headers that are not part of the
sources at hand, so they are parameters of the factory. -/
structure Term_ops (T : Type) where
  hash_value : T → Nat
  is_equivalent : T → T → Bool

/-- Modelled from the spec: `is_equivalent` (equivalence.hpp) and `hash_value`
(hash.hpp) are missing from the sources.  The specification says that two
terms are equivalent iff their variant tags match and all substructure
compares equivalent, recursively; on a term given as a value that is equality
of the values.  The hash is any function of the value. -/
def structural_ops {T : Type} [DecidableEq T] (hash : T → Nat) : Term_ops T where
  hash_value := hash
  is_equivalent := fun a b => decide (a = b)

/-- The elements of a `Hashed_unique_factory<T, Hash, Eq>` (an
`std::unordered_set`), in the order in which they were inserted.  An element
is never erased or moved, so its position is its identity. -/
abbrev Factory (T : Type) := List T

/-- The lookup `unordered_set::emplace` performs for the freshly constructed
element `x`: an element whose hash code equals that of `x` and for which
`Eq` answers true; the position of the first such element. -/
def Factory.find {T : Type} (E : Term_ops T) (x : T) : Factory T → Option Addr
  | [] => none
  | e :: es =>
    if E.hash_value e = E.hash_value x ∧ E.is_equivalent x e = true then some 0
    else (Factory.find E x es).map (· + 1)

/-- The call `this->emplace(args...)`: the element `x` constructed from the
arguments is inserted unless the set already holds an equivalent element.
The result is the position of the element the returned iterator points to,
whether an insertion took place, and the set afterwards. -/
def Factory.emplace {T : Type} (E : Term_ops T) (f : Factory T) (x : T) :
    Addr × Bool × Factory T :=
  match Factory.find E x f with
  | some i => (i, false, f)
  | none => (f.length, true, f ++ [x])

/-- The method `Hashed_unique_factory::make`: emplace and return a reference
to the element `ins.first` points to. -/
def Hashed_unique_factory.make {T : Type} (E : Term_ops T) (f : Factory T) (x : T) :
    Addr × Factory T :=
  let ins := Factory.emplace E f x
  (ins.1, ins.2.2)

/-- The node type `Conjunction_cons`, constructed from `(Cons& c1, Cons& c2)`. -/
structure Conjunction_cons (Cons : Type) where
  left : Cons
  right : Cons
  deriving DecidableEq, Repr

/-- The builder `Builder::get_conjunction_constraint`. -/
def get_conjunction_constraint {C : Type} (E : Term_ops (Conjunction_cons C))
    (f : Factory (Conjunction_cons C)) (c1 c2 : C) : Addr × Factory (Conjunction_cons C) :=
  Hashed_unique_factory.make E f ⟨c1, c2⟩

/-- A `Qualifier_set`: a bit set, joined with the bitwise or the code writes
as `qual |= ...`. -/
abbrev Qualifier_set := Nat

/-- Modelled from the spec: the enumerators of `Qualifier_set` are declared in
ast.hpp, which is not part of the sources.  The specification describes the
set as a bitset of type qualifiers (const, volatile); each qualifier is one
bit. -/
def const_qual : Qualifier_set := 1

/-- Modelled from the spec: the bit of the volatile qualifier, see `const_qual`. -/
def volatile_qual : Qualifier_set := 2

/-- A type node as the builder stores it: the variant and the constructor
arguments `Builder` passes in `builder.cpp`.  A sub-term is held by reference
(`Type&`, `Decl&`), that is, by the position of the node referred to. -/
inductive Type_node where
  | User_type (d : Addr)
  | Void_type
  | Boolean_type
  | Integer_type (s : Bool) (p : Int)
  | Byte_type
  | Float_type
  | Auto_type
  | Declauto_type
  | Function_type (ts : List Addr) (r : Addr)
  | Qualified_type (t : Addr) (qual : Qualifier_set)
  | Pointer_type (t : Addr)
  | Reference_type (t : Addr)
  | Slice_type (t : Addr)
  | In_type (t : Addr)
  | Out_type (t : Addr)
  | Mutable_type (t : Addr)
  | Consume_type (t : Addr)
  | Forward_type (t : Addr)
  | Pack_type (t : Addr)
  | Typename_type (d : Addr)
  | Synthetic_type (d : Addr)
  deriving DecidableEq, Repr

/-- The test `as<Qualified_type>(&t)` succeeds on this node. -/
def Type_node.is_qualified : Type_node → Bool
  | .Qualified_type _ _ => true
  | _ => false

/-- A declaration node as the builder stores it: the variant and the
constructor arguments of the `make_...` calls in `builder.cpp` (the constant
`Index {}` left out), sub-terms by reference.  `Class_decl` and
`Namespace_decl` are named in `act-decl.cpp` and `ast.cpp`.  `Template_decl`
carries the constraint slot `cons` that `templatize_declaration` assigns, and
`Concept_decl` its definition slot, a null pointer being `none`. -/
inductive Decl_node where
  | Super_decl (n : Addr) (t : Addr) (d : Addr)
  | Variable_decl (n : Addr) (t : Addr) (d : Addr)
  | Function_decl (n : Addr) (t : Addr) (p : List Addr) (d : Addr)
  | Class_decl (n : Addr) (d : Addr)
  | Type_decl (n : Addr) (t : Addr) (d : Addr)
  | Field_decl (n : Addr) (t : Addr) (d : Addr)
  | Method_decl (n : Addr) (t : Addr) (p : List Addr) (d : Addr)
  | Template_decl (p : List Addr) (d : Addr) (cons : Option Addr)
  | Concept_decl (n : Addr) (ps : List Addr) (d : Option Addr)
  | Object_parm (n : Addr) (t : Addr)
  | Value_parm (n : Addr) (t : Addr)
  | Type_parm (n : Addr) (t : Option Addr)
  | Namespace_decl (n : Addr)
  deriving DecidableEq, Repr

/-- A definition node as the builder stores it: the variant and the
constructor argument of the `make_..._definition` calls in `builder.cpp`,
sub-terms by reference.  `Class_def` is what `make_class_definition`, called
in `act-decl.cpp`, makes of a list of declarations. -/
inductive Def_node where
  | Empty_def
  | Deleted_def
  | Defaulted_def
  | Expression_def (e : Addr)
  | Function_def (s : Addr)
  | Type_def (s : Addr)
  | Class_def (ds : List Addr)
  | Concept_def (ss : List Addr)
  deriving DecidableEq, Repr

/-- A symbol of the symbol table as the builder uses it: whether it is an
`Identifier_sym` (the test `is<Identifier_sym>(&sym)`) and its spelling. -/
structure Symbol where
  is_identifier : Bool
  spelling : String
  deriving DecidableEq, Repr

/-- A token as the semantic actions use it: `tok.symbol()`. -/
structure Token where
  symbol : Symbol
  deriving DecidableEq, Repr

/-- A name node as the builder stores it: the variant and the constructor
arguments of the `get_id` family in `builder.cpp`, sub-terms by reference. -/
inductive Name_node where
  | Simple_id (sym : Symbol)
  | Placeholder_id (n : Nat)
  | Operator_id (k : Nat)
  | Template_id (d : Addr) (ts : List Addr)
  | Concept_id (d : Addr) (ts : List Addr)
  | Qualified_id (d : Addr) (n : Addr)
  deriving DecidableEq, Repr

/-- The nodes the builder has made so far: the type nodes, the declaration
nodes, the definition nodes and the name nodes, each store in allocation
order. -/
structure Builder where
  types : List Type_node
  decls : List Decl_node
  defs : List Def_node := []
  names : List Name_node := []
  deriving DecidableEq, Repr

/-- The builder before any node has been made. -/
def Builder.init : Builder := { types := [], decls := [] }

/-- Modelled from the spec: the probe of the type table with the sub-terms of
a type node compared as references.  The specification has the factory return
the existing node if an equivalent one was already built.  The result is the
first position that holds the node.  The probe that compares sub-terms
recursively is `Builder.find_equivalent` below. -/
def Builder.find_type (n : Type_node) : List Type_node → Option Addr
  | [] => none
  | m :: ms => if m = n then some 0 else (Builder.find_type n ms).map (· + 1)

/-- Modelled from the spec: `Builder::make<T>` for a Type variant `T` without
type sub-terms and for the wrapper of `get_qualified_type`, which is looked
up by the node it wraps.  The member template `make` is declared in
builder.hpp, which is not part of the sources.  The specification makes types
canonical: the factory returns the existing instance if an equivalent one was
already built, otherwise it builds and registers a new one, and it never
frees a node.  For a type without type sub-terms, and in every store of which
no two nodes are equivalent, this is `Builder.canonicalize` below
(`Builder.canonicalize_eq_make_type`,
`Builder.canonicalize_eq_make_type_of_unique`). -/
def Builder.make_type (b : Builder) (n : Type_node) : Addr × Builder :=
  match Builder.find_type n b.types with
  | some i => (i, b)
  | none => (b.types.length, { b with types := b.types ++ [n] })

/-- The type sub-terms of a node, the return type of a function type first. -/
def Type_node.subterms : Type_node → List Addr
  | .Function_type ts r => r :: ts
  | .Qualified_type t _ => [t]
  | .Pointer_type t => [t]
  | .Reference_type t => [t]
  | .Slice_type t => [t]
  | .In_type t => [t]
  | .Out_type t => [t]
  | .Mutable_type t => [t]
  | .Consume_type t => [t]
  | .Forward_type t => [t]
  | .Pack_type t => [t]
  | _ => []

/-- The variant tag of a node together with its fields that are not types:
the node with its type sub-terms blanked out.  A declaration is a reference
type, so the declaration a type names is part of the label. -/
def Type_node.label : Type_node → Type_node
  | .Function_type _ _ => .Function_type [] 0
  | .Qualified_type _ q => .Qualified_type 0 q
  | .Pointer_type _ => .Pointer_type 0
  | .Reference_type _ => .Reference_type 0
  | .Slice_type _ => .Slice_type 0
  | .In_type _ => .In_type 0
  | .Out_type _ => .Out_type 0
  | .Mutable_type _ => .Mutable_type 0
  | .Consume_type _ => .Consume_type 0
  | .Forward_type _ => .Forward_type 0
  | .Pack_type _ => .Pack_type 0
  | n => n

/-- Modelled from the spec: ordered term lists compare equivalent when they
have the same length and compare equivalent element by element. -/
def all_equivalent (eq : Addr → Addr → Bool) : List Addr → List Addr → Bool
  | [], [] => true
  | a :: as, b :: bs => eq a b && all_equivalent eq as bs
  | _, _ => false

/-- Modelled from the spec: one step of `is_equivalent` on types, which is
declared in a header that is not part of the sources.  Two types are
equivalent iff their variant tags match and all substructure compares
equivalent; `eq` compares the type sub-terms. -/
def Type_node.same (eq : Addr → Addr → Bool) (x y : Type_node) : Bool :=
  decide (x.label = y.label) && all_equivalent eq x.subterms y.subterms

/-- Modelled from the spec: `is_equivalent` on two types of the store `l`,
the sub-terms compared recursively, to the depth `fuel`. -/
def is_equivalent_within (l : List Type_node) : Nat → Addr → Addr → Bool
  | 0, _, _ => false
  | fuel + 1, t1, t2 =>
    match l[t1]?, l[t2]? with
    | some x, some y => x.same (is_equivalent_within l fuel) y
    | _, _ => false

/-- Modelled from the spec: `is_equivalent` on two types of the store `l`.  A
node refers to nodes made before it, so no type is deeper than the store is
long, and more depth changes no result (`is_equivalent_within_fuel`). -/
def is_equivalent (l : List Type_node) (t1 t2 : Addr) : Bool :=
  is_equivalent_within l l.length t1 t2

/-- The first position of the table whose node satisfies `p`. -/
def Builder.find_equivalent (p : Type_node → Bool) : List Type_node → Option Addr
  | [] => none
  | m :: ms => if p m then some 0 else (Builder.find_equivalent p ms).map (· + 1)

/-- Modelled from the spec: `Builder::make<T>` for a Type variant `T`, the
`canonicalize` of the specification (see `Builder.make_type` for what is
missing): probe the table for a node equivalent to the request, the sub-terms
compared recursively by `is_equivalent`; return it if there is one, otherwise
register the request as a new node. -/
def Builder.canonicalize (b : Builder) (n : Type_node) : Addr × Builder :=
  match Builder.find_equivalent (fun m => m.same (is_equivalent b.types) n) b.types with
  | some i => (i, b)
  | none => (b.types.length, { b with types := b.types ++ [n] })

/-- Modelled from the spec: `Builder::make<T>` for a Decl variant `T` (see
`Builder.make_type` for what is missing).  The specification has declarations
freshly allocated on every call, without lookup. -/
def Builder.make_decl (b : Builder) (n : Decl_node) : Addr × Builder :=
  (b.decls.length, { b with decls := b.decls ++ [n] })

/-- The builder `Builder::get_type(Type_decl&)`. -/
def Builder.get_type (b : Builder) (d : Addr) : Addr × Builder :=
  b.make_type (.User_type d)

/-- The builder `Builder::get_void_type`. -/
def Builder.get_void_type (b : Builder) : Addr × Builder :=
  b.make_type .Void_type

/-- The builder `Builder::get_bool_type`. -/
def Builder.get_bool_type (b : Builder) : Addr × Builder :=
  b.make_type .Boolean_type

/-- The builder `Builder::get_integer_type(bool s, int p)`. -/
def Builder.get_integer_type (b : Builder) (s : Bool) (p : Int) : Addr × Builder :=
  b.make_type (.Integer_type s p)

/-- The builder `Builder::get_byte_type`. -/
def Builder.get_byte_type (b : Builder) : Addr × Builder :=
  b.make_type .Byte_type

/-- The builder `Builder::get_int_type`. -/
def Builder.get_int_type (b : Builder) : Addr × Builder :=
  b.get_integer_type true 32

/-- The builder `Builder::get_uint_type`. -/
def Builder.get_uint_type (b : Builder) : Addr × Builder :=
  b.get_integer_type false 32

/-- The builder `Builder::get_float_type`. -/
def Builder.get_float_type (b : Builder) : Addr × Builder :=
  b.make_type .Float_type

/-- The builder `Builder::get_auto_type`. -/
def Builder.get_auto_type (b : Builder) : Addr × Builder :=
  b.make_type .Auto_type

/-- The builder `Builder::get_declauto_type`. -/
def Builder.get_declauto_type (b : Builder) : Addr × Builder :=
  b.make_type .Declauto_type

/-- The builder `Builder::get_function_type(Type_list const&, Type&)`. -/
def Builder.get_function_type (b : Builder) (ts : List Addr) (r : Addr) : Addr × Builder :=
  b.canonicalize (.Function_type ts r)

/-- The builder `Builder::get_qualified_type`: a node that already is a
`Qualified_type` gets the qualifiers or-ed into its own set and is returned;
any other type is wrapped in a `Qualified_type` made by `make`. -/
def Builder.get_qualified_type (b : Builder) (t : Addr) (qual : Qualifier_set) :
    Addr × Builder :=
  match b.types[t]? with
  | some (.Qualified_type u q) =>
    (t, { b with types := b.types.set t (.Qualified_type u (q ||| qual)) })
  | _ => b.make_type (.Qualified_type t qual)

/-- The builder `Builder::get_const_type`. -/
def Builder.get_const_type (b : Builder) (t : Addr) : Addr × Builder :=
  b.get_qualified_type t const_qual

/-- The builder `Builder::get_volatile_type`. -/
def Builder.get_volatile_type (b : Builder) (t : Addr) : Addr × Builder :=
  b.get_qualified_type t volatile_qual

/-- The builder `Builder::get_pointer_type`. -/
def Builder.get_pointer_type (b : Builder) (t : Addr) : Addr × Builder :=
  b.canonicalize (.Pointer_type t)

/-- The builder `Builder::get_reference_type`. -/
def Builder.get_reference_type (b : Builder) (t : Addr) : Addr × Builder :=
  b.canonicalize (.Reference_type t)

/-- The builder `Builder::get_slice_type`. -/
def Builder.get_slice_type (b : Builder) (t : Addr) : Addr × Builder :=
  b.canonicalize (.Slice_type t)

/-- The builder `Builder::get_in_type`. -/
def Builder.get_in_type (b : Builder) (t : Addr) : Addr × Builder :=
  b.canonicalize (.In_type t)

/-- The builder `Builder::get_out_type`. -/
def Builder.get_out_type (b : Builder) (t : Addr) : Addr × Builder :=
  b.canonicalize (.Out_type t)

/-- The builder `Builder::get_mutable_type`. -/
def Builder.get_mutable_type (b : Builder) (t : Addr) : Addr × Builder :=
  b.canonicalize (.Mutable_type t)

/-- The builder `Builder::get_consume_type`. -/
def Builder.get_consume_type (b : Builder) (t : Addr) : Addr × Builder :=
  b.canonicalize (.Consume_type t)

/-- The builder `Builder::get_forward_type`. -/
def Builder.get_forward_type (b : Builder) (t : Addr) : Addr × Builder :=
  b.canonicalize (.Forward_type t)

/-- The builder `Builder::get_pack_type`. -/
def Builder.get_pack_type (b : Builder) (t : Addr) : Addr × Builder :=
  b.canonicalize (.Pack_type t)

/-- The builder `Builder::get_typename_type`. -/
def Builder.get_typename_type (b : Builder) (d : Addr) : Addr × Builder :=
  b.make_type (.Typename_type d)

/-- The builder `Builder::synthesize_type`. -/
def Builder.synthesize_type (b : Builder) (d : Addr) : Addr × Builder :=
  b.make_type (.Synthetic_type d)

/-- The builder `Builder::make_template`, `make<Template_decl>(p, d)`.  The
constructor of `Template_decl` is declared in ast.hpp, which is not part of
the sources; the specification gives a template an optional constraint, which
the constructor is given no argument for and so leaves absent. -/
def Builder.make_template (b : Builder) (p : List Addr) (d : Addr) : Addr × Builder :=
  b.make_decl (.Template_decl p d none)

/-- The states the builder can be in after `b`: any number of further calls
of `make` for a type, of `get_qualified_type`, and of operations that leave
the type store alone.  Every type builder of `builder.cpp` is one of the
first three. -/
inductive Builder.Later (b : Builder) : Builder → Prop where
  | refl : Builder.Later b b
  | make_type (c : Builder) (n : Type_node) :
      Builder.Later b c → Builder.Later b (c.make_type n).2
  | canonicalize (c : Builder) (n : Type_node) :
      Builder.Later b c → Builder.Later b (c.canonicalize n).2
  | get_qualified_type (c : Builder) (t : Addr) (qual : Qualifier_set) :
      Builder.Later b c → Builder.Later b (c.get_qualified_type t qual).2
  | other (c d : Builder) :
      Builder.Later b c → d.types = c.types → Builder.Later b d

/-! ### Template wrapping (`act-decl.cpp`, lines 15-37) -/

/-- The statement `tmp.cons = state.template_cons` on the node `tmp`. -/
def Builder.assign_cons (b : Builder) (tmp : Addr) (cons : Option Addr) : Builder :=
  match b.decls[tmp]? with
  | some (.Template_decl p d _) =>
    { b with decls := b.decls.set tmp (.Template_decl p d cons) }
  | _ => b

/-- The pending template state of the parser (`Parser::state`): the
unassigned template parameter list and the unassigned template constraint,
both pointers, `none` being the null pointer. -/
structure State where
  template_parms : Option (List Addr)
  template_cons : Option Addr
  deriving DecidableEq, Repr

/-- The parser as far as `templatize_declaration` uses it: the builder
`build` and the pending template state `state`. -/
structure Parser where
  build : Builder
  state : State
  deriving DecidableEq, Repr

/-- The action `Parser::templatize_declaration`. -/
def Parser.templatize_declaration (p : Parser) (d : Addr) : Addr × Parser :=
  match p.state.template_parms with
  | some parms =>
    let tmp := p.build.make_template parms d
    let state1 : State := { p.state with template_parms := none }
    match state1.template_cons with
    | some c =>
      (tmp.1, { build := tmp.2.assign_cons tmp.1 (some c),
                state := { state1 with template_cons := none } })
    | none => (tmp.1, { build := tmp.2, state := state1 })
  | none => (d, p)

/-! ### Values (`value.hpp`) -/

/-- The enumeration `Value_kind`. -/
inductive Value_kind where
  | error_value
  | integer_value
  | float_value
  | function_value
  | reference_value
  | array_value
  | dynarray_value
  | tuple_value
  deriving DecidableEq, Repr

/-- The empty struct `Error_value`. -/
structure Error_value where
  deriving DecidableEq, Repr

/-- The type `Integer_value`, an `int64_t`. -/
abbrev Integer_value := Int

/-- The type `Float_value`, a `double`. -/
abbrev Float_value := Float

/-- The type `Function_value`, a `Function_decl const*`: an address. -/
abbrev Function_value := Addr

/-- The type `Reference_value`, a `Value*`: an address in the memory of values. -/
abbrev Reference_value := Addr

/-- The struct `Aggregate_value`: a length and a pointer to the elements. -/
structure Aggregate_value where
  len : Nat
  data : Addr
  deriving DecidableEq, Repr

/-- The struct `Array_value : Aggregate_value`. -/
structure Array_value extends Aggregate_value where
  deriving DecidableEq, Repr

/-- The struct `Dynarray_value : Aggregate_value`. -/
structure Dynarray_value extends Aggregate_value where
  deriving DecidableEq, Repr

/-- The struct `Tuple_value : Aggregate_value`. -/
structure Tuple_value extends Aggregate_value where
  deriving DecidableEq, Repr

/-- The union `Value_rep`: the member that was written last, with its value. -/
inductive Value_rep where
  | err_ (e : Error_value)
  | int_ (z : Integer_value)
  | float_ (fp : Float_value)
  | fn_ (f : Function_value)
  | ref_ (r : Reference_value)
  | arr_ (a : Array_value)
  | darr_ (a : Dynarray_value)
  | tup_ (t : Tuple_value)

/-- The struct `Value`: the kind `k` and the representation `r`. -/
structure Value where
  k : Value_kind
  r : Value_rep

/-- The conversion `(int64_t)n` of an integer of another type: the value
modulo 2^64 in the range of `int64_t`. -/
def int64_cast (n : Int) : Integer_value :=
  (n + 2 ^ 63) % 2 ^ 64 - 2 ^ 63

/-- The constructor `Value()`. -/
def Value.new : Value := { k := .error_value, r := .err_ {} }

/-- The constructor `Value(int n)`. -/
def Value.of_int (n : Int) : Value := { k := .integer_value, r := .int_ (int64_cast n) }

/-- The constructor `Value(unsigned long n)`. -/
def Value.of_unsigned_long (n : Nat) : Value :=
  { k := .integer_value, r := .int_ (int64_cast n) }

/-- The constructor `Value(Integer_value n)`. -/
def Value.of_integer (n : Integer_value) : Value := { k := .integer_value, r := .int_ n }

/-- The constructor `Value(Float_value fp)`. -/
def Value.of_float (fp : Float_value) : Value := { k := .float_value, r := .float_ fp }

/-- The constructor `Value(Function_value f)`. -/
def Value.of_function (f : Function_value) : Value := { k := .function_value, r := .fn_ f }

/-- The constructor `Value(Array_value a)`. -/
def Value.of_array (a : Array_value) : Value := { k := .array_value, r := .arr_ a }

/-- The constructor `Value(Dynarray_value a)`. -/
def Value.of_dynarray (a : Dynarray_value) : Value := { k := .dynarray_value, r := .darr_ a }

/-- The constructor `Value(Tuple_value a)`. -/
def Value.of_tuple (a : Tuple_value) : Value := { k := .tuple_value, r := .tup_ a }

/-- The accessor `Value::kind`. -/
def Value.kind (v : Value) : Value_kind := v.k

/-- The test `Value::is_error`. -/
def Value.is_error (v : Value) : Bool := v.k == .error_value

/-- The test `Value::is_integer`. -/
def Value.is_integer (v : Value) : Bool := v.k == .integer_value

/-- The test `Value::is_float`. -/
def Value.is_float (v : Value) : Bool := v.k == .float_value

/-- The test `Value::is_function`. -/
def Value.is_function (v : Value) : Bool := v.k == .function_value

/-- The test `Value::is_reference`. -/
def Value.is_reference (v : Value) : Bool := v.k == .reference_value

/-- The test `Value::is_array`. -/
def Value.is_array (v : Value) : Bool := v.k == .array_value

/-- The test `Value::is_dynarray`. -/
def Value.is_dynarray (v : Value) : Bool := v.k == .dynarray_value

/-- The test `Value::is_tuple`. -/
def Value.is_tuple (v : Value) : Bool := v.k == .tuple_value

/-- The memory a `Value*` points into: the values that exist, a pointer
being a position; a pointer to no value reads `none`. -/
abbrev Value_memory := List Value

/-- The constructor `Value(Value* v)`: kind and representation are set, then
`assert(!v->is_reference())` is checked on the value `v` points to. -/
def Value.of_reference (mem : Value_memory) (v : Reference_value) : Except Failure Value :=
  match mem[v]? with
  | none => .error .invalid_pointer
  | some pointee =>
    if !pointee.is_reference then .ok { k := .reference_value, r := .ref_ v }
    else .error .assertion

/-- The extractor `Value::get_error`: `assert(is_error()); return r.err_;`. -/
def Value.get_error (v : Value) : Except Failure Error_value :=
  if v.is_error then
    match v.r with
    | .err_ e => .ok e
    | _ => .error .inactive_member
  else .error .assertion

/-- The extractor `Value::get_integer`. -/
def Value.get_integer (v : Value) : Except Failure Integer_value :=
  if v.is_integer then
    match v.r with
    | .int_ z => .ok z
    | _ => .error .inactive_member
  else .error .assertion

/-- The extractor `Value::get_float`. -/
def Value.get_float (v : Value) : Except Failure Float_value :=
  if v.is_float then
    match v.r with
    | .float_ fp => .ok fp
    | _ => .error .inactive_member
  else .error .assertion

/-- The extractor `Value::get_function`. -/
def Value.get_function (v : Value) : Except Failure Function_value :=
  if v.is_function then
    match v.r with
    | .fn_ f => .ok f
    | _ => .error .inactive_member
  else .error .assertion

/-- The extractor `Value::get_reference`. -/
def Value.get_reference (v : Value) : Except Failure Reference_value :=
  if v.is_reference then
    match v.r with
    | .ref_ p => .ok p
    | _ => .error .inactive_member
  else .error .assertion

/-- The extractor `Value::get_array`. -/
def Value.get_array (v : Value) : Except Failure Array_value :=
  if v.is_array then
    match v.r with
    | .arr_ a => .ok a
    | _ => .error .inactive_member
  else .error .assertion

/-- The extractor `Value::get_dynarray`. -/
def Value.get_dynarray (v : Value) : Except Failure Dynarray_value :=
  if v.is_dynarray then
    match v.r with
    | .darr_ a => .ok a
    | _ => .error .inactive_member
  else .error .assertion

/-- The extractor `Value::get_tuple`. -/
def Value.get_tuple (v : Value) : Except Failure Tuple_value :=
  if v.is_tuple then
    match v.r with
    | .tup_ t => .ok t
    | _ => .error .inactive_member
  else .error .assertion

/-! ### Type categorisation (`ast.cpp`, lines 26-66) -/

/-- A type as `is_value_type` walks it: the variant and, below a reference
member, the type referred to.  The variants are those `is_value_type` has an
overload for (`ast.cpp`) together with those the builder makes
(`builder.cpp`).  Declarations and expressions below a type play no part in
the classification and stay references. -/
inductive Type_ where
  | Void_type
  | Boolean_type
  | Integer_type (s : Bool) (p : Int)
  | Byte_type
  | Float_type
  | Auto_type
  | Decltype_type (e : Addr)
  | Declauto_type
  | Function_type (ts : List Type_) (r : Type_)
  | Qualified_type (t : Type_) (qual : Qualifier_set)
  | Pointer_type (t : Type_)
  | Reference_type (t : Type_)
  | Array_type (t : Type_) (e : Addr)
  | Sequence_type (t : Type_)
  | Slice_type (t : Type_)
  | Dynarray_type (t : Type_) (e : Addr)
  | In_type (t : Type_)
  | Out_type (t : Type_)
  | Mutable_type (t : Type_)
  | Consume_type (t : Type_)
  | Forward_type (t : Type_)
  | Pack_type (t : Type_)
  | Class_type (d : Addr)
  | Union_type (d : Addr)
  | Enum_type (d : Addr)
  | Typename_type (d : Addr)
  | Type_type
  | Synthetic_type (d : Addr)
  | User_type (d : Addr)

/-- The function `is_value_type`: `apply(t, fn{})` selects the overload of
`fn::operator()` for the variant of `t`.  `lingo_unreachable()` and
`lingo_unimplemented()` do not return.  The struct `fn` has no overload for
`Byte_type`, `Slice_type`, `Dynarray_type`, `In_type`, `Out_type`,
`Mutable_type`, `Consume_type`, `Forward_type`, `Pack_type`, `Type_type`,
`Synthetic_type` and `User_type`, and `apply` is declared in a header that is
not part of the sources: the function returns no truth value for them, which
`no_overload` records. -/
def is_value_type : Type_ → Except Failure Bool
  | .Void_type => .ok true
  | .Boolean_type => .ok true
  | .Integer_type _ _ => .ok true
  | .Float_type => .ok true
  | .Auto_type => .error .unreachable
  | .Decltype_type _ => .error .unimplemented
  | .Declauto_type => .error .unreachable
  | .Function_type _ _ => .ok false
  | .Qualified_type t _ => is_value_type t
  | .Pointer_type _ => .ok true
  | .Reference_type _ => .ok false
  | .Array_type _ _ => .ok true
  | .Sequence_type _ => .ok true
  | .Class_type _ => .ok true
  | .Union_type _ => .ok true
  | .Enum_type _ => .ok true
  | .Typename_type _ => .error .unreachable
  | .Byte_type => .error .no_overload
  | .Slice_type _ => .error .no_overload
  | .Dynarray_type _ _ => .error .no_overload
  | .In_type _ => .error .no_overload
  | .Out_type _ => .error .no_overload
  | .Mutable_type _ => .error .no_overload
  | .Consume_type _ => .error .no_overload
  | .Forward_type _ => .error .no_overload
  | .Pack_type _ => .error .no_overload
  | .Type_type => .error .no_overload
  | .Synthetic_type _ => .error .no_overload
  | .User_type _ => .error .no_overload

/-- The type left after every enclosing `Qualified_type` layer is removed
(the first step of the classifier the specification describes). -/
def strip_qualifiers : Type_ → Type_
  | .Qualified_type t _ => strip_qualifiers t
  | t => t

/-- The reference classifier, written after the specification: strip the
`Qualified_type` layers; Void, Boolean, Integer, Float, Pointer, Array,
Sequence/Slice, Class, Union and Enum are value types, Function and
Reference are not, and nothing is said of the other variants. -/
def reference_classifier (t : Type_) : Option Bool :=
  match strip_qualifiers t with
  | .Void_type => some true
  | .Boolean_type => some true
  | .Integer_type _ _ => some true
  | .Float_type => some true
  | .Pointer_type _ => some true
  | .Array_type _ _ => some true
  | .Sequence_type _ => some true
  | .Slice_type _ => some true
  | .Class_type _ => some true
  | .Union_type _ => some true
  | .Enum_type _ => some true
  | .Function_type _ _ => some false
  | .Reference_type _ => some false
  | _ => none

/-- The four placeholder and dependent variants: Auto, Declauto, Typename and
Decltype. -/
def Type_.is_placeholder : Type_ → Bool
  | .Auto_type => true
  | .Declauto_type => true
  | .Typename_type _ => true
  | .Decltype_type _ => true
  | _ => false

/-- The variants `fn` in `is_value_type` has an overload for. -/
def Type_.has_overload : Type_ → Bool
  | .Void_type => true
  | .Boolean_type => true
  | .Integer_type _ _ => true
  | .Float_type => true
  | .Auto_type => true
  | .Decltype_type _ => true
  | .Declauto_type => true
  | .Function_type _ _ => true
  | .Qualified_type _ _ => true
  | .Pointer_type _ => true
  | .Reference_type _ => true
  | .Array_type _ _ => true
  | .Sequence_type _ => true
  | .Class_type _ => true
  | .Union_type _ => true
  | .Enum_type _ => true
  | .Typename_type _ => true
  | _ => false

/-! ### Definition linkage (`act-decl.cpp`, lines 95-237) -/

/-- Modelled from the spec: `Builder::make<T>` for a Def variant `T` (see
`Builder.make_type` for what is missing).  The specification has definitions
freshly allocated on every call, without lookup. -/
def Builder.make_def (b : Builder) (n : Def_node) : Addr × Builder :=
  (b.defs.length, { b with defs := b.defs ++ [n] })

/-- The builder `Builder::make_expression_definition`. -/
def Builder.make_expression_definition (b : Builder) (e : Addr) : Addr × Builder :=
  b.make_def (.Expression_def e)

/-- The builder `Builder::make_function_definition`. -/
def Builder.make_function_definition (b : Builder) (s : Addr) : Addr × Builder :=
  b.make_def (.Function_def s)

/-- The builder `Builder::make_type_definition`. -/
def Builder.make_type_definition (b : Builder) (s : Addr) : Addr × Builder :=
  b.make_def (.Type_def s)

/-- The builder `Builder::make_concept_definition`. -/
def Builder.make_concept_definition (b : Builder) (ss : List Addr) : Addr × Builder :=
  b.make_def (.Concept_def ss)

/-- Modelled from the spec: `Builder::make_class_definition` is called in
`act-decl.cpp` but is not defined in `builder.cpp`.  The specification has
every definition freshly allocated from its constructor arguments, as the
sibling `make_..._definition` functions do. -/
def Builder.make_class_definition (b : Builder) (ds : List Addr) : Addr × Builder :=
  b.make_def (.Class_def ds)

/-- Modelled from the spec: `Decl::parameterized_declaration` is declared in
ast.hpp, which is not part of the sources.  The specification: a
declaration's parameterized declaration is itself unless it is wrapped by a
template, in which case it is the template's wrapped declaration, the
template being a one-level indirection. -/
def Builder.parameterized_declaration (b : Builder) (decl : Addr) : Addr :=
  match b.decls[decl]? with
  | some (.Template_decl _ d _) => d
  | _ => decl

/-- The function `define_entity`: the definition `defn` is assigned to the
slot `def` of a `Function_decl` or `def_` of a `Class_decl` and returned;
`lingo_unhandled` for every other declaration. -/
def define_entity (b : Builder) (decl defn : Addr) : Except Failure (Addr × Builder) :=
  let d := b.parameterized_declaration decl
  match b.decls[d]? with
  | some (.Function_decl n t p _) =>
    .ok (defn, { b with decls := b.decls.set d (.Function_decl n t p defn) })
  | some (.Class_decl n _) =>
    .ok (defn, { b with decls := b.decls.set d (.Class_decl n defn) })
  | some _ => .error .unhandled
  | none => .error .invalid_pointer

/-- The function `define_concept`: `cast<Concept_decl>(decl)`, then the
definition is assigned to the slot `def` of the concept. -/
def define_concept (b : Builder) (decl defn : Addr) : Except Failure Builder :=
  match b.decls[decl]? with
  | some (.Concept_decl n ps _) =>
    .ok { b with decls := b.decls.set decl (.Concept_decl n ps (some defn)) }
  | some _ => .error .bad_cast
  | none => .error .invalid_pointer

/-- The action `Parser::on_function_definition`: `lingo_unreachable()`. -/
def Parser.on_function_definition (_p : Parser) (_d _s : Addr) :
    Except Failure (Addr × Parser) :=
  .error .unreachable

/-- The action `Parser::on_deleted_definition`: `lingo_unreachable()`. -/
def Parser.on_deleted_definition (_p : Parser) (_d : Addr) : Except Failure (Addr × Parser) :=
  .error .unreachable

/-- The action `Parser::on_defaulted_definition`: `lingo_unreachable()`. -/
def Parser.on_defaulted_definition (_p : Parser) (_d : Addr) :
    Except Failure (Addr × Parser) :=
  .error .unreachable

/-- The action `Parser::on_class_definition`. -/
def Parser.on_class_definition (p : Parser) (d : Addr) (ds : List Addr) :
    Except Failure (Addr × Parser) :=
  let defn := p.build.make_class_definition ds
  match define_entity defn.2 d defn.1 with
  | .ok r => .ok (r.1, { p with build := r.2 })
  | .error f => .error f

/-- The action `Parser::on_concept_definition(Decl&, Expr&)`. -/
def Parser.on_concept_definition (p : Parser) (decl e : Addr) :
    Except Failure (Addr × Parser) :=
  let defn := p.build.make_expression_definition e
  match define_concept defn.2 decl defn.1 with
  | .ok b => .ok (defn.1, { p with build := b })
  | .error f => .error f

/-- The action `Parser::on_concept_definition(Decl&, Req_list&)`. -/
def Parser.on_concept_definition_reqs (p : Parser) (decl : Addr) (ds : List Addr) :
    Except Failure (Addr × Parser) :=
  let defn := p.build.make_concept_definition ds
  match define_concept defn.2 decl defn.1 with
  | .ok b => .ok (defn.1, { p with build := b })
  | .error f => .error f

/-- The definition slot of a declaration node: the member `def` of a
function, `def_` of a class, `def` of a concept (null before a definition is
attached), and the definition the other declarations are constructed with. -/
def Decl_node.definition : Decl_node → Option Addr
  | .Super_decl _ _ d => some d
  | .Variable_decl _ _ d => some d
  | .Function_decl _ _ _ d => some d
  | .Class_decl _ d => some d
  | .Type_decl _ _ d => some d
  | .Field_decl _ _ d => some d
  | .Method_decl _ _ _ d => some d
  | .Concept_decl _ _ d => d
  | _ => none

/-- The declaration is a `Function_decl` (`as<Function_decl>` succeeds). -/
def Decl_node.is_function : Decl_node → Bool
  | .Function_decl _ _ _ _ => true
  | _ => false

/-- The declaration is a `Class_decl` (`as<Class_decl>` succeeds). -/
def Decl_node.is_class : Decl_node → Bool
  | .Class_decl _ _ => true
  | _ => false

/-- The declaration is a `Concept_decl` (`cast<Concept_decl>` succeeds). -/
def Decl_node.is_concept : Decl_node → Bool
  | .Concept_decl _ _ _ => true
  | _ => false

/-- The node after `define_entity` has assigned `defn` to its slot. -/
def Decl_node.with_definition (defn : Addr) : Decl_node → Decl_node
  | .Function_decl n t p _ => .Function_decl n t p defn
  | .Class_decl n _ => .Class_decl n defn
  | .Concept_decl n ps _ => .Concept_decl n ps (some defn)
  | n => n

/-! ### Boolean reading and traversal of values (`value.hpp`, lines 186-211, 358-395) -/

/-- The extractor `Value::get_boolean`: `(bool)get_integer()`. -/
def Value.get_boolean (v : Value) : Except Failure Bool :=
  match v.get_integer with
  | .ok z => .ok (z != 0)
  | .error f => .error f

/-- The kind whose union member is the active one. -/
def Value_rep.kind : Value_rep → Value_kind
  | .err_ _ => .error_value
  | .int_ _ => .integer_value
  | .float_ _ => .float_value
  | .fn_ _ => .function_value
  | .ref_ _ => .reference_value
  | .arr_ _ => .array_value
  | .darr_ _ => .dynarray_value
  | .tup_ _ => .tuple_value

/-- The builder `Builder::get_destructor_id`: `lingo_unimplemented`. -/
def Builder.get_destructor_id (_b : Builder) (_t : Addr) : Except Failure (Addr × Builder) :=
  .error .unimplemented

/-- The builder `Builder::get_decltype_type`: `lingo_unimplemented`. -/
def Builder.get_decltype_type (_b : Builder) (_e : Addr) : Except Failure (Addr × Builder) :=
  .error .unimplemented

/-- The builder `Builder::get_array_type`: `lingo_unimplemented`. -/
def Builder.get_array_type (_b : Builder) (_t _e : Addr) : Except Failure (Addr × Builder) :=
  .error .unimplemented

/-- The builder `Builder::get_dynarray_type`: `lingo_unimplemented`. -/
def Builder.get_dynarray_type (_b : Builder) (_t _e : Addr) :
    Except Failure (Addr × Builder) :=
  .error .unimplemented

/-- The action `Parser::on_destructor_id`. -/
def Parser.on_destructor_id (p : Parser) (_tok t : Addr) : Except Failure (Addr × Parser) :=
  match p.build.get_destructor_id t with
  | .ok r => .ok (r.1, { p with build := r.2 })
  | .error f => .error f

/-- The action `Parser::on_class_name(Token)`: `throw Lookup_error("not a class")`. -/
def Parser.on_class_name (_p : Parser) (_tok : Addr) : Except Failure (Addr × Parser) :=
  .error (.lookup_error "not a class")

/-- The declaration is an `Object_parm` (`cast<Object_parm>` succeeds). -/
def Decl_node.is_object_parm : Decl_node → Bool
  | .Object_parm _ _ => true
  | _ => false

/-- The loop of `Builder::get_function_type(Decl_list const&, Type&)`: each
declaration is cast to `Object_parm` and its type is pushed onto `ts`. -/
def Builder.parm_types (b : Builder) : List Addr → List Addr → Except Failure (List Addr)
  | [], ts => .ok ts
  | d :: ds, ts =>
    match b.decls[d]? with
    | some (.Object_parm _ t) => Builder.parm_types b ds (ts ++ [t])
    | some _ => .error .bad_cast
    | none => .error .invalid_pointer

/-- The builder `Builder::get_function_type(Decl_list const& ps, Type& r)`. -/
def Builder.get_function_type_decls (b : Builder) (ps : List Addr) (r : Addr) :
    Except Failure (Addr × Builder) :=
  match Builder.parm_types b ps [] with
  | .ok ts => .ok (b.get_function_type ts r)
  | .error f => .error f

/-- The builder `Builder::make_function_declaration(Name&, Decl_list const&,
Type&, Expr&)`. -/
def Builder.make_function_declaration (b : Builder) (n : Addr) (p : List Addr)
    (t e : Addr) : Except Failure (Addr × Builder) :=
  match b.get_function_type_decls p t with
  | .ok r =>
    let d := r.2.make_expression_definition e
    .ok (d.2.make_decl (.Function_decl n r.1 p d.1))
  | .error f => .error f

/-- The builder `Builder::make_function_declaration(Name&, Decl_list const&,
Type&, Stmt&)`. -/
def Builder.make_function_declaration_stmt (b : Builder) (n : Addr) (p : List Addr)
    (t s : Addr) : Except Failure (Addr × Builder) :=
  match b.get_function_type_decls p t with
  | .ok r =>
    let d := r.2.make_function_definition s
    .ok (d.2.make_decl (.Function_decl n r.1 p d.1))
  | .error f => .error f

/-! ### Resolved names (`sema_id.cpp`, lines 165-190; `builder.cpp`, lines 94-116) -/

/-- Modelled from the spec: `Builder::make<T>` for a Name variant `T` (see
`Builder.make_type` for what is missing).  The specification has identifiers
built without canonicalisation, a fresh node on every call. -/
def Builder.make_name (b : Builder) (n : Name_node) : Addr × Builder :=
  (b.names.length, { b with names := b.names ++ [n] })

/-- The builder `Builder::get_id(Symbol const&)`:
`lingo_assert(is<Identifier_sym>(&sym))`, then `make<Simple_id>(sym)`. -/
def Builder.get_id (b : Builder) (sym : Symbol) : Except Failure (Addr × Builder) :=
  if sym.is_identifier then .ok (b.make_name (.Simple_id sym)) else .error .assertion

/-- The builder `Builder::get_id(Token)`: `get_id(tok.symbol())`. -/
def Builder.get_id_token (b : Builder) (tok : Token) : Except Failure (Addr × Builder) :=
  b.get_id tok.symbol

/-- The declaration is a `Type_parm` (`as<Type_parm>` succeeds). -/
def Decl_node.is_type_parm : Decl_node → Bool
  | .Type_parm _ _ => true
  | _ => false

/-- The message of a `Lookup_error` whose format string has one placeholder,
replaced by the printed identifier: the text before the placeholder, the
spelling of the identifier, the text after it. -/
def lookup_message (before : String) (sym : Symbol) (after : String) : String :=
  before ++ sym.spelling ++ after

/-- The action `Parser::on_type_alias(Token)`.  The parameter `lookup` stands
for `unqualified_lookup(current_scope(), id)`, which is declared in
lookup.hpp and not part of the sources: the declarations found for the
identifier in the current scope. -/
def Parser.on_type_alias (p : Parser) (lookup : Symbol → List Addr) (tok : Token) :
    Except Failure (Addr × Parser) :=
  match p.build.get_id_token tok with
  | .error f => .error f
  | .ok id =>
    match lookup tok.symbol with
    | [] =>
      .error (.lookup_error (lookup_message "no matching declaration for '" tok.symbol "'"))
    | _ :: _ :: _ =>
      .error (.lookup_error (lookup_message "lookup of '" tok.symbol "' is ambiguous"))
    | [decl] =>
      match id.2.decls[decl]? with
      | some (.Type_parm _ _) =>
        .ok ((id.2.get_typename_type decl).1,
          { p with build := (id.2.get_typename_type decl).2 })
      | some _ =>
        .error (.lookup_error (lookup_message "'" tok.symbol "' does not name a type"))
      | none => .error .invalid_pointer

/-- The relation between the type store at some time and at a later time: a
node that is not a `Qualified_type` is still the same, one that is a
`Qualified_type` still is one. -/
def Keeps (l l2 : List Type_node) : Prop :=
  ∀ (i : Addr) (m : Type_node), l[i]? = some m →
    ∃ m2, l2[i]? = some m2 ∧ (m.is_qualified = false → m2 = m) ∧
      (m.is_qualified = true → m2.is_qualified = true)

/-- The invariant of claim C14: every `Qualified_type` node has an underlying
type that exists and is not a `Qualified_type`. -/
def Builder.No_nested_qualifiers (b : Builder) : Prop :=
  ∀ (q u : Addr) (A : Qualifier_set), b.types[q]? = some (.Qualified_type u A) →
    ∃ m, b.types[u]? = some m ∧ m.is_qualified = false

/-- The states the builder is in after calls of its type builders, starting
from the empty builder: every builder other than the qualifying ones makes a
node that is not a `Qualified_type`, the qualifying ones go through
`get_qualified_type` with a type that exists, and the other operations leave
the type store alone. -/
inductive Builder.Built : Builder → Prop where
  | init : Builder.Built Builder.init
  | make_type (b : Builder) (n : Type_node) :
      Builder.Built b → n.is_qualified = false → Builder.Built (b.make_type n).2
  | canonicalize (b : Builder) (n : Type_node) :
      Builder.Built b → n.is_qualified = false → Builder.Built (b.canonicalize n).2
  | get_qualified_type (b : Builder) (t : Addr) (qual : Qualifier_set) :
      Builder.Built b → t < b.types.length → Builder.Built (b.get_qualified_type t qual).2
  | other (b c : Builder) :
      Builder.Built b → c.types = b.types → Builder.Built c

/-- A store in which every node refers to nodes made before it.  A builder
is given references to types that exist, so every store it makes is of this
kind. -/
def Well_formed (l : List Type_node) : Prop :=
  ∀ (i : Addr) (m : Type_node), l[i]? = some m → ∀ c ∈ m.subterms, c < i

/-- A store of which no two nodes are equivalent: structural equality is
reference equality. -/
def Unique_types (l : List Type_node) : Prop :=
  ∀ a b : Addr, is_equivalent l a b = true → a = b

/-- What it is for the type builder `build`, which asks for the node
`node a`, to return the identical node for structurally equivalent
arguments.  In a store `b` that holds the sub-terms of the request, the node
returned is stored at the returned position and is equivalent to the request;
the store is the old one or the old one with the request at its end; and a
later call, made in any store `c` that the store has grown into, with
arguments that are equivalent to those of the first call, returns the node
of the first call and leaves `c` as it is. -/
def Canonical_type_builder {A : Type} (node : A → Type_node)
    (build : Builder → A → Addr × Builder) : Prop :=
  ∀ (b : Builder) (a : A), Well_formed b.types →
    (∀ x ∈ (node a).subterms, x < b.types.length) →
    (∃ m, (build b a).2.types[(build b a).1]? = some m ∧
      m.same (is_equivalent (build b a).2.types) (node a) = true) ∧
    ((build b a).2.types = b.types ∨
      ((build b a).2.types = b.types ++ [node a] ∧ (build b a).1 = b.types.length)) ∧
    Well_formed (build b a).2.types ∧
    ∀ (c : Builder) (a2 : A), (build b a).2.types <+: c.types →
      (node a).same (is_equivalent c.types) (node a2) = true →
      build c a2 = ((build b a).1, c)

/-! ## Theorems -/

/-! ### The hashed unique factory -/

/-- Three calls of `get_conjunction_constraint` evaluated: a first request is
inserted at position 0, a request with the operands swapped (same hash, not
equivalent) is inserted at position 1, and repeating it returns position 1
and inserts nothing. -/
theorem get_conjunction_constraint_eval :
    get_conjunction_constraint
        (structural_ops (fun c : Conjunction_cons Nat => c.left + c.right)) [] 1 2 =
      (0, [⟨1, 2⟩]) ∧
    get_conjunction_constraint
        (structural_ops (fun c : Conjunction_cons Nat => c.left + c.right)) [⟨1, 2⟩] 2 1 =
      (1, [⟨1, 2⟩, ⟨2, 1⟩]) ∧
    get_conjunction_constraint
        (structural_ops (fun c : Conjunction_cons Nat => c.left + c.right))
        [⟨1, 2⟩, ⟨2, 1⟩] 2 1 =
      (1, [⟨1, 2⟩, ⟨2, 1⟩]) := by
  decide

/-! ### The type builders -/

theorem Builder.find_type_iff (n : Type_node) :
    ∀ (l : List Type_node) (i : Nat), Builder.find_type n l = some i ↔
      (l[i]? = some n ∧ ∀ j, j < i → l[j]? ≠ some n) := by
  intro l
  induction l with
  | nil => intro i; simp [Builder.find_type]
  | cons m ms ih =>
    intro i
    unfold Builder.find_type
    by_cases hm : m = n
    · subst hm
      simp only [if_true]
      constructor
      · intro h
        cases h
        exact ⟨by simp, fun j hj => absurd hj (Nat.not_lt_zero j)⟩
      · rintro ⟨_, h2⟩
        cases i with
        | zero => rfl
        | succ k => exact absurd (by simp) (h2 0 (Nat.succ_pos k))
    · simp only [hm, if_false]
      cases i with
      | zero =>
        simp only [List.getElem?_cons_zero, Option.some.injEq]
        constructor
        · intro h
          cases hr : Builder.find_type n ms with
          | none => simp [hr] at h
          | some k => simp [hr] at h
        · rintro ⟨h1, _⟩
          exact absurd h1 hm
      | succ k =>
        constructor
        · intro h
          cases hr : Builder.find_type n ms with
          | none => simp [hr] at h
          | some k2 =>
            simp [hr] at h
            subst h
            obtain ⟨h1, h2⟩ := (ih k2).mp hr
            refine ⟨by simpa using h1, ?_⟩
            intro j hj
            cases j with
            | zero => simpa using hm
            | succ j2 =>
              simp only [List.getElem?_cons_succ]
              exact h2 j2 (Nat.lt_of_succ_lt_succ hj)
        · rintro ⟨h1, h2⟩
          have h1b : ms[k]? = some n := by simpa using h1
          have h2b : ∀ j, j < k → ms[j]? ≠ some n := by
            intro j hj
            have := h2 (j + 1) (Nat.succ_lt_succ hj)
            simpa using this
          rw [(ih k).mpr ⟨h1b, h2b⟩]
          rfl

theorem Builder.find_type_none (n : Type_node) :
    ∀ (l : List Type_node), Builder.find_type n l = none → ∀ i : Nat, l[i]? ≠ some n := by
  intro l
  induction l with
  | nil => intro _ i; simp
  | cons m ms ih =>
    intro h i
    unfold Builder.find_type at h
    by_cases hm : m = n
    · simp [hm] at h
    · simp only [hm, if_false] at h
      cases hr : Builder.find_type n ms with
      | some k => simp [hr] at h
      | none =>
        cases i with
        | zero => simpa using hm
        | succ k =>
          simp only [List.getElem?_cons_succ]
          exact ih hr k

/-- The node `make` returns is stored at the returned position, it is the
first such node, and the nodes made before are where they were. -/
theorem Builder.make_type_spec (b : Builder) (n : Type_node) :
    Builder.find_type n (b.make_type n).2.types = some (b.make_type n).1 ∧
    (b.make_type n).2.types[(b.make_type n).1]? = some n ∧
    (b.make_type n).2.decls = b.decls ∧
    ((b.make_type n).2.types = b.types ∨
      ((b.make_type n).2.types = b.types ++ [n] ∧ (b.make_type n).1 = b.types.length ∧
        ∀ i : Nat, b.types[i]? ≠ some n)) := by
  unfold Builder.make_type
  cases hr : Builder.find_type n b.types with
  | some i =>
    exact ⟨hr, ((Builder.find_type_iff n _ i).mp hr).1, rfl, Or.inl rfl⟩
  | none =>
    have hno := Builder.find_type_none n _ hr
    have hget : (b.types ++ [n])[b.types.length]? = some n := by simp
    refine ⟨?_, hget, rfl, Or.inr ⟨rfl, rfl, hno⟩⟩
    show Builder.find_type n (b.types ++ [n]) = some b.types.length
    rw [Builder.find_type_iff]
    refine ⟨hget, ?_⟩
    intro j hj
    rw [List.getElem?_append_left hj]
    exact hno j

/-- A second request for the node that the table just returned finds it again. -/
theorem Builder.make_type_of_find (b : Builder) (n : Type_node) (i : Nat)
    (h : Builder.find_type n b.types = some i) : b.make_type n = (i, b) := by
  unfold Builder.make_type
  rw [h]

/-! #### Structural equivalence and the canonical table -/

/-- The comparison of two nodes, variant by variant, for the integer, pointer,
reference, slice, qualified and function types; a pointer type and a
reference type are not the same. -/
theorem Type_node.same_equations (eq : Addr → Addr → Bool) (s s2 : Bool) (p p2 : Int)
    (t t2 r r2 : Addr) (ts ts2 : List Addr) (q q2 : Qualifier_set) :
    (Type_node.Integer_type s p).same eq (.Integer_type s2 p2) = decide (s = s2 ∧ p = p2) ∧
    (Type_node.Pointer_type t).same eq (.Pointer_type t2) = eq t t2 ∧
    (Type_node.Reference_type t).same eq (.Reference_type t2) = eq t t2 ∧
    (Type_node.Slice_type t).same eq (.Slice_type t2) = eq t t2 ∧
    (Type_node.Qualified_type t q).same eq (.Qualified_type t2 q2) =
      (decide (q = q2) && eq t t2) ∧
    (Type_node.Function_type ts r).same eq (.Function_type ts2 r2) =
      (eq r r2 && all_equivalent eq ts ts2) ∧
    (Type_node.Pointer_type t).same eq (.Reference_type t2) = false := by
  simp [Type_node.same, Type_node.label, Type_node.subterms, all_equivalent]

theorem all_equivalent_congr (e1 e2 : Addr → Addr → Bool) :
    ∀ (xs ys : List Addr), (∀ c ∈ xs, ∀ c2 ∈ ys, e1 c c2 = e2 c c2) →
      all_equivalent e1 xs ys = all_equivalent e2 xs ys := by
  intro xs
  induction xs with
  | nil => intro ys _; cases ys <;> rfl
  | cons a as ih =>
    intro ys h
    cases ys with
    | nil => rfl
    | cons b bs =>
      simp only [all_equivalent]
      rw [h a (List.mem_cons_self a as) b (List.mem_cons_self b bs),
        ih bs (fun c hc c2 hc2 => h c (List.mem_cons_of_mem a hc) c2 (List.mem_cons_of_mem b hc2))]

theorem all_equivalent_refl (e : Addr → Addr → Bool) :
    ∀ (xs : List Addr), (∀ c ∈ xs, e c c = true) → all_equivalent e xs xs = true := by
  intro xs
  induction xs with
  | nil => intro _; rfl
  | cons a as ih =>
    intro h
    simp only [all_equivalent, Bool.and_eq_true]
    exact ⟨h a (List.mem_cons_self a as), ih (fun c hc => h c (List.mem_cons_of_mem a hc))⟩

theorem all_equivalent_symm (e : Addr → Addr → Bool) (hs : ∀ a b, e a b = e b a) :
    ∀ (xs ys : List Addr), all_equivalent e xs ys = all_equivalent e ys xs := by
  intro xs
  induction xs with
  | nil => intro ys; cases ys <;> rfl
  | cons a as ih =>
    intro ys
    cases ys with
    | nil => rfl
    | cons b bs =>
      simp only [all_equivalent]
      rw [hs a b, ih bs]

theorem all_equivalent_trans (e : Addr → Addr → Bool)
    (ht : ∀ a b c, e a b = true → e b c = true → e a c = true) :
    ∀ (xs ys zs : List Addr), all_equivalent e xs ys = true → all_equivalent e ys zs = true →
      all_equivalent e xs zs = true := by
  intro xs
  induction xs with
  | nil =>
    intro ys zs h1 h2
    cases ys with
    | nil => exact h2
    | cons b bs => simp [all_equivalent] at h1
  | cons a as ih =>
    intro ys zs h1 h2
    cases ys with
    | nil => simp [all_equivalent] at h1
    | cons b bs =>
      cases zs with
      | nil => simp [all_equivalent] at h2
      | cons c cs =>
        simp only [all_equivalent, Bool.and_eq_true] at h1 h2 ⊢
        exact ⟨ht a b c h1.1 h2.1, ih bs cs h1.2 h2.2⟩

theorem Type_node.same_congr (e1 e2 : Addr → Addr → Bool) (x y : Type_node)
    (h : ∀ c ∈ x.subterms, ∀ c2 ∈ y.subterms, e1 c c2 = e2 c c2) :
    x.same e1 y = x.same e2 y := by
  unfold Type_node.same
  rw [all_equivalent_congr e1 e2 _ _ h]

theorem Type_node.same_refl (e : Addr → Addr → Bool) (x : Type_node)
    (h : ∀ c ∈ x.subterms, e c c = true) : x.same e x = true := by
  unfold Type_node.same
  rw [all_equivalent_refl e _ h]
  simp

theorem Type_node.same_symm (e : Addr → Addr → Bool) (hs : ∀ a b, e a b = e b a)
    (x y : Type_node) : x.same e y = y.same e x := by
  unfold Type_node.same
  rw [all_equivalent_symm e hs x.subterms y.subterms]
  congr 1
  exact decide_eq_decide.mpr ⟨fun h => h.symm, fun h => h.symm⟩

theorem Type_node.same_trans (e : Addr → Addr → Bool)
    (ht : ∀ a b c, e a b = true → e b c = true → e a c = true) (x y z : Type_node)
    (h1 : x.same e y = true) (h2 : y.same e z = true) : x.same e z = true := by
  unfold Type_node.same at h1 h2 ⊢
  simp only [Bool.and_eq_true, decide_eq_true_eq] at h1 h2 ⊢
  exact ⟨h1.1.trans h2.1, all_equivalent_trans e ht _ _ _ h1.2 h2.2⟩

theorem is_equivalent_within_symm (l : List Type_node) :
    ∀ (fuel : Nat) (a b : Addr),
      is_equivalent_within l fuel a b = is_equivalent_within l fuel b a := by
  intro fuel
  induction fuel with
  | zero => intro a b; rfl
  | succ f ih =>
    intro a b
    simp only [is_equivalent_within]
    cases l[a]? <;> cases l[b]? <;> simp only []
    exact Type_node.same_symm _ ih _ _

theorem is_equivalent_within_trans (l : List Type_node) :
    ∀ (fuel : Nat) (a b c : Addr), is_equivalent_within l fuel a b = true →
      is_equivalent_within l fuel b c = true → is_equivalent_within l fuel a c = true := by
  intro fuel
  induction fuel with
  | zero => intro a b c h; simp [is_equivalent_within] at h
  | succ f ih =>
    intro a b c
    simp only [is_equivalent_within]
    cases l[a]? <;> cases l[b]? <;> cases l[c]? <;> intro h1 h2 <;>
      first
      | exact Type_node.same_trans _ ih _ _ _ h1 h2
      | exact absurd h1 Bool.false_ne_true
      | exact absurd h2 Bool.false_ne_true

theorem Well_formed.lt_length {l : List Type_node} (h : Well_formed l) {i : Addr}
    {m : Type_node} (hm : l[i]? = some m) {c : Addr} (hc : c ∈ m.subterms) :
    c < l.length :=
  Nat.lt_trans (h i m hm c hc) (List.getElem?_eq_some.mp hm).1

theorem Well_formed.with_node {l : List Type_node} (h : Well_formed l) (n : Type_node)
    (hn : ∀ c ∈ n.subterms, c < l.length) : Well_formed (l ++ [n]) := by
  intro i m hm c hc
  by_cases hi : i < l.length
  · rw [List.getElem?_append_left hi] at hm
    exact h i m hm c hc
  · have hlen : i < (l ++ [n]).length := (List.getElem?_eq_some.mp hm).1
    have hil : i = l.length := by
      rw [List.length_append, List.length_singleton] at hlen
      exact Nat.le_antisymm (Nat.le_of_lt_succ hlen) (Nat.le_of_not_lt hi)
    subst hil
    rw [List.getElem?_concat_length] at hm
    cases hm
    exact hn c hc

/-- More fuel than the position of the first node does not change the result. -/
theorem is_equivalent_within_fuel (l : List Type_node) (hwf : Well_formed l) :
    ∀ (a : Addr) (f1 f2 : Nat) (b : Addr), a < f1 → a < f2 →
      is_equivalent_within l f1 a b = is_equivalent_within l f2 a b := by
  intro a
  induction a using Nat.strong_induction_on with
  | _ a ih =>
    intro f1 f2 b h1 h2
    cases f1 with
    | zero => exact absurd h1 (Nat.not_lt_zero a)
    | succ g1 =>
      cases f2 with
      | zero => exact absurd h2 (Nat.not_lt_zero a)
      | succ g2 =>
        simp only [is_equivalent_within]
        cases ha : l[a]? with
        | none => rfl
        | some x =>
          cases hb : l[b]? with
          | none => rfl
          | some y =>
            apply Type_node.same_congr
            intro c hc c2 _
            have hca : c < a := hwf a x ha c hc
            exact ih c hca g1 g2 c2 (Nat.lt_of_lt_of_le hca (Nat.le_of_lt_succ h1))
              (Nat.lt_of_lt_of_le hca (Nat.le_of_lt_succ h2))

/-- Nodes added at the end do not change the comparison of older nodes. -/
theorem is_equivalent_within_append (l ext : List Type_node) (hwf : Well_formed l) :
    ∀ (fuel : Nat) (a b : Addr), a < l.length → b < l.length →
      is_equivalent_within (l ++ ext) fuel a b = is_equivalent_within l fuel a b := by
  intro fuel
  induction fuel with
  | zero => intro a b _ _; rfl
  | succ f ih =>
    intro a b ha hb
    simp only [is_equivalent_within]
    rw [List.getElem?_append_left ha, List.getElem?_append_left hb]
    cases hxa : l[a]? with
    | none => rfl
    | some x =>
      cases hyb : l[b]? with
      | none => rfl
      | some y =>
        apply Type_node.same_congr
        intro c hc c2 hc2
        exact ih c c2 (hwf.lt_length hxa hc) (hwf.lt_length hyb hc2)

theorem is_equivalent_within_refl (l : List Type_node) (hwf : Well_formed l) :
    ∀ (a : Addr) (fuel : Nat), a < l.length → a < fuel →
      is_equivalent_within l fuel a a = true := by
  intro a
  induction a using Nat.strong_induction_on with
  | _ a ih =>
    intro fuel hal haf
    cases fuel with
    | zero => exact absurd haf (Nat.not_lt_zero a)
    | succ g =>
      simp only [is_equivalent_within]
      rw [List.getElem?_eq_getElem hal]
      apply Type_node.same_refl
      intro c hc
      have hca : c < a := hwf a _ (List.getElem?_eq_getElem hal) c hc
      exact ih c hca g (Nat.lt_trans hca hal) (Nat.lt_of_lt_of_le hca (Nat.le_of_lt_succ haf))

theorem is_equivalent_refl (l : List Type_node) (hwf : Well_formed l) (a : Addr)
    (ha : a < l.length) : is_equivalent l a a = true :=
  is_equivalent_within_refl l hwf a l.length ha ha

theorem is_equivalent_symm (l : List Type_node) (a b : Addr) :
    is_equivalent l a b = is_equivalent l b a :=
  is_equivalent_within_symm l l.length a b

theorem is_equivalent_trans (l : List Type_node) (a b c : Addr)
    (h1 : is_equivalent l a b = true) (h2 : is_equivalent l b c = true) :
    is_equivalent l a c = true :=
  is_equivalent_within_trans l l.length a b c h1 h2

/-- Equivalent types are nodes of the store. -/
theorem is_equivalent_lt (l : List Type_node) (a b : Addr) (h : is_equivalent l a b = true) :
    a < l.length ∧ b < l.length := by
  unfold is_equivalent at h
  cases hl : l.length with
  | zero => rw [hl] at h; simp [is_equivalent_within] at h
  | succ k =>
    rw [hl] at h
    simp only [is_equivalent_within] at h
    cases ha : l[a]? with
    | none => rw [ha] at h; exact absurd h Bool.false_ne_true
    | some x =>
      cases hb : l[b]? with
      | none => rw [ha, hb] at h; exact absurd h Bool.false_ne_true
      | some y =>
        rw [← hl]
        exact ⟨(List.getElem?_eq_some.mp ha).1, (List.getElem?_eq_some.mp hb).1⟩

theorem is_equivalent_append (l ext : List Type_node) (hwf : Well_formed l) (a b : Addr)
    (ha : a < l.length) (hb : b < l.length) :
    is_equivalent (l ++ ext) a b = is_equivalent l a b := by
  unfold is_equivalent
  rw [is_equivalent_within_append l ext hwf _ a b ha hb]
  exact is_equivalent_within_fuel l hwf a _ _ b
    (by rw [List.length_append]; exact Nat.lt_of_lt_of_le ha (Nat.le_add_right _ _)) ha

/-- The comparison of two nodes whose sub-terms are in the store `l` is the
same in every store that `l` is the beginning of. -/
theorem Type_node.same_append (l ext : List Type_node) (hwf : Well_formed l)
    (m n : Type_node) (hm : ∀ c ∈ m.subterms, c < l.length)
    (hn : ∀ c ∈ n.subterms, c < l.length) :
    m.same (is_equivalent (l ++ ext)) n = m.same (is_equivalent l) n :=
  Type_node.same_congr _ _ m n
    (fun c hc c2 hc2 => is_equivalent_append l ext hwf c c2 (hm c hc) (hn c2 hc2))

theorem Type_node.same_is_equivalent_symm (l : List Type_node) (m n : Type_node) :
    m.same (is_equivalent l) n = n.same (is_equivalent l) m :=
  Type_node.same_symm _ (is_equivalent_symm l) m n

theorem Type_node.same_is_equivalent_trans (l : List Type_node) (m n k : Type_node)
    (h1 : m.same (is_equivalent l) n = true) (h2 : n.same (is_equivalent l) k = true) :
    m.same (is_equivalent l) k = true :=
  Type_node.same_trans _ (is_equivalent_trans l) m n k h1 h2

theorem Type_node.same_is_equivalent_refl (l : List Type_node) (hwf : Well_formed l)
    (n : Type_node) (hn : ∀ c ∈ n.subterms, c < l.length) :
    n.same (is_equivalent l) n = true :=
  Type_node.same_refl _ n (fun c hc => is_equivalent_refl l hwf c (hn c hc))

theorem Builder.find_equivalent_iff (p : Type_node → Bool) :
    ∀ (l : List Type_node) (i : Nat), Builder.find_equivalent p l = some i ↔
      ((∃ m, l[i]? = some m ∧ p m = true) ∧
        ∀ j, j < i → ∀ m, l[j]? = some m → p m = false) := by
  intro l
  induction l with
  | nil => intro i; simp [Builder.find_equivalent]
  | cons m ms ih =>
    intro i
    unfold Builder.find_equivalent
    cases hm : p m with
    | true =>
      simp only [if_true]
      constructor
      · intro h
        cases h
        exact ⟨⟨m, by simp, hm⟩, fun j hj => absurd hj (Nat.not_lt_zero j)⟩
      · rintro ⟨_, h2⟩
        cases i with
        | zero => rfl
        | succ k =>
          have := h2 0 (Nat.succ_pos k) m (by simp)
          rw [hm] at this
          exact absurd this (by simp)
    | false =>
      simp only [Bool.false_eq_true, if_false]
      cases i with
      | zero =>
        constructor
        · intro h
          cases hr : Builder.find_equivalent p ms with
          | none => simp [hr] at h
          | some k => simp [hr] at h
        · rintro ⟨⟨m2, h1, h2⟩, _⟩
          simp only [List.getElem?_cons_zero, Option.some.injEq] at h1
          subst h1
          rw [hm] at h2
          exact absurd h2 (by simp)
      | succ k =>
        constructor
        · intro h
          cases hr : Builder.find_equivalent p ms with
          | none => simp [hr] at h
          | some k2 =>
            simp [hr] at h
            subst h
            obtain ⟨⟨m2, h1, h1p⟩, h2⟩ := (ih k2).mp hr
            refine ⟨⟨m2, by simpa using h1, h1p⟩, ?_⟩
            intro j hj mj hmj
            cases j with
            | zero =>
              simp only [List.getElem?_cons_zero, Option.some.injEq] at hmj
              subst hmj
              exact hm
            | succ j2 =>
              simp only [List.getElem?_cons_succ] at hmj
              exact h2 j2 (Nat.lt_of_succ_lt_succ hj) mj hmj
        · rintro ⟨⟨m2, h1, h1p⟩, h2⟩
          have h1b : ms[k]? = some m2 := by simpa using h1
          have h2b : ∀ j, j < k → ∀ mj, ms[j]? = some mj → p mj = false := by
            intro j hj mj hmj
            exact h2 (j + 1) (Nat.succ_lt_succ hj) mj (by simpa using hmj)
          rw [(ih k).mpr ⟨⟨m2, h1b, h1p⟩, h2b⟩]
          rfl

theorem Builder.find_equivalent_none (p : Type_node → Bool) :
    ∀ (l : List Type_node), Builder.find_equivalent p l = none →
      ∀ (i : Nat) (m : Type_node), l[i]? = some m → p m = false := by
  intro l
  induction l with
  | nil => intro _ i m h; simp at h
  | cons m ms ih =>
    intro h i m2 hm2
    unfold Builder.find_equivalent at h
    cases hm : p m with
    | true => simp [hm] at h
    | false =>
      simp only [hm, Bool.false_eq_true, if_false] at h
      cases hr : Builder.find_equivalent p ms with
      | some k => simp [hr] at h
      | none =>
        cases i with
        | zero =>
          simp only [List.getElem?_cons_zero, Option.some.injEq] at hm2
          subst hm2
          exact hm
        | succ k =>
          simp only [List.getElem?_cons_succ] at hm2
          exact ih hr k m2 hm2

/-- What `canonicalize` returns: the first node of the table that is
equivalent to the request; the table is the old one or the old one with the
request at its end; the other stores are left alone. -/
theorem Builder.canonicalize_spec (b : Builder) (n : Type_node)
    (hwf : Well_formed b.types) (hn : ∀ c ∈ n.subterms, c < b.types.length) :
    (∃ m, (b.canonicalize n).2.types[(b.canonicalize n).1]? = some m ∧
      m.same (is_equivalent (b.canonicalize n).2.types) n = true) ∧
    (∀ j, j < (b.canonicalize n).1 → ∀ m, (b.canonicalize n).2.types[j]? = some m →
      m.same (is_equivalent (b.canonicalize n).2.types) n = false) ∧
    ((b.canonicalize n).2.types = b.types ∨
      ((b.canonicalize n).2.types = b.types ++ [n] ∧
        (b.canonicalize n).1 = b.types.length)) ∧
    Well_formed (b.canonicalize n).2.types := by
  unfold Builder.canonicalize
  cases hr : Builder.find_equivalent (fun m => m.same (is_equivalent b.types) n) b.types with
  | some i =>
    obtain ⟨h1, h2⟩ := (Builder.find_equivalent_iff _ _ i).mp hr
    exact ⟨h1, h2, Or.inl rfl, hwf⟩
  | none =>
    have hno := Builder.find_equivalent_none _ _ hr
    have hwf2 : Well_formed (b.types ++ [n]) := hwf.with_node n hn
    have hn2 : ∀ c ∈ n.subterms, c < (b.types ++ [n]).length := by
      intro c hc
      rw [List.length_append]
      exact Nat.lt_of_lt_of_le (hn c hc) (Nat.le_add_right _ _)
    refine ⟨⟨n, ?_, ?_⟩, ?_, Or.inr ⟨rfl, rfl⟩, hwf2⟩
    · show (b.types ++ [n])[b.types.length]? = some n
      simp
    · exact Type_node.same_is_equivalent_refl _ hwf2 n hn2
    · intro j hj m hm
      have hj2 : j < b.types.length := hj
      have hm2 : b.types[j]? = some m := by
        have hm3 : (b.types ++ [n])[j]? = some m := hm
        rw [List.getElem?_append_left hj2] at hm3
        exact hm3
      show m.same (is_equivalent (b.types ++ [n])) n = false
      rw [Type_node.same_append b.types [n] hwf m n
        (fun c hc => hwf.lt_length hm2 hc) hn]
      exact hno j m hm2

theorem Builder.canonicalize_stores (b : Builder) (n : Type_node) :
    (b.canonicalize n).2.decls = b.decls ∧ (b.canonicalize n).2.defs = b.defs ∧
    (b.canonicalize n).2.names = b.names := by
  unfold Builder.canonicalize
  split <;> exact ⟨rfl, rfl, rfl⟩

theorem Builder.canonicalize_types (b : Builder) (n : Type_node) :
    (b.canonicalize n).2.types = b.types ∨ (b.canonicalize n).2.types = b.types ++ [n] := by
  unfold Builder.canonicalize
  split
  · exact Or.inl rfl
  · exact Or.inr rfl

theorem Builder.canonicalize_of_find (b : Builder) (n : Type_node) (i : Nat)
    (h : Builder.find_equivalent (fun m => m.same (is_equivalent b.types) n) b.types =
      some i) : b.canonicalize n = (i, b) := by
  unfold Builder.canonicalize
  rw [h]

/-- A request that is equivalent to an earlier one, made while the table has
only grown, returns the node of the earlier request and changes nothing. -/
theorem Builder.canonicalize_again (b c : Builder) (n n2 : Type_node)
    (hwf : Well_formed b.types) (hn : ∀ x ∈ n.subterms, x < b.types.length)
    (hpre : (b.canonicalize n).2.types <+: c.types)
    (he : n.same (is_equivalent c.types) n2 = true) :
    c.canonicalize n2 = ((b.canonicalize n).1, c) := by
  obtain ⟨⟨m, hm, hmn⟩, hfirst, hty, hwf1⟩ := Builder.canonicalize_spec b n hwf hn
  obtain ⟨ext, hext⟩ := hpre
  have hn1 : ∀ x ∈ n.subterms, x < (b.canonicalize n).2.types.length := by
    intro x hx
    rcases hty with h | ⟨h, _⟩
    · rw [h]; exact hn x hx
    · rw [h, List.length_append]
      exact Nat.lt_of_lt_of_le (hn x hx) (Nat.le_add_right _ _)
  have hstable : ∀ (j : Nat) (mj : Type_node), (b.canonicalize n).2.types[j]? = some mj →
      mj.same (is_equivalent c.types) n =
        mj.same (is_equivalent (b.canonicalize n).2.types) n := by
    intro j mj hmj
    rw [← hext]
    exact Type_node.same_append _ ext hwf1 mj n (fun x hx => hwf1.lt_length hmj hx) hn1
  have hold : ∀ (j : Nat) (mj : Type_node), (b.canonicalize n).2.types[j]? = some mj →
      c.types[j]? = some mj := by
    intro j mj hmj
    rw [← hext, List.getElem?_append_left (List.getElem?_eq_some.mp hmj).1]
    exact hmj
  have hf : Builder.find_equivalent (fun k => k.same (is_equivalent c.types) n2) c.types =
      some (b.canonicalize n).1 := by
    rw [Builder.find_equivalent_iff]
    refine ⟨⟨m, hold _ m hm, ?_⟩, ?_⟩
    · apply Type_node.same_is_equivalent_trans c.types m n n2 _ he
      rw [hstable _ m hm]
      exact hmn
    · intro j hj mj hmj
      have hjl : j < (b.canonicalize n).2.types.length :=
        Nat.lt_trans hj (List.getElem?_eq_some.mp hm).1
      have hmj1 : (b.canonicalize n).2.types[j]? = some mj := by
        rw [← hext, List.getElem?_append_left hjl] at hmj
        exact hmj
      cases hcon : mj.same (is_equivalent c.types) n2 with
      | false => rfl
      | true =>
        have he2 : n2.same (is_equivalent c.types) n = true := by
          rw [Type_node.same_is_equivalent_symm]
          exact he
        have h3 := Type_node.same_is_equivalent_trans c.types mj n2 n hcon he2
        rw [hstable j mj hmj1, hfirst j hj mj hmj1] at h3
        exact absurd h3 Bool.false_ne_true
  exact Builder.canonicalize_of_find c n2 _ hf

theorem Type_node.label_of_no_subterms (n : Type_node) (h : n.subterms = []) :
    n.label = n := by
  cases n <;> first | rfl | simp [Type_node.subterms] at h

theorem all_equivalent_nil (e : Addr → Addr → Bool) (xs : List Addr) :
    all_equivalent e xs [] = decide (xs = []) := by
  cases xs <;> simp [all_equivalent]

/-- A node without type sub-terms is equivalent to the nodes equal to it and
to no other. -/
theorem Type_node.same_of_no_subterms (e : Addr → Addr → Bool) (m n : Type_node)
    (hn : n.subterms = []) : m.same e n = decide (m = n) := by
  unfold Type_node.same
  rw [hn, all_equivalent_nil, Type_node.label_of_no_subterms n hn]
  by_cases hm : m.subterms = []
  · rw [Type_node.label_of_no_subterms m hm]
    simp [hm]
  · have : m ≠ n := by
      intro h
      rw [h] at hm
      exact hm hn
    simp [hm, this]

theorem Builder.find_equivalent_eq_find_type (p : Type_node → Bool) (n : Type_node)
    (hp : ∀ m, p m = decide (m = n)) :
    ∀ l : List Type_node, Builder.find_equivalent p l = Builder.find_type n l := by
  intro l
  induction l with
  | nil => rfl
  | cons m ms ih =>
    unfold Builder.find_equivalent Builder.find_type
    rw [ih, hp m]
    by_cases h : m = n <;> simp [h]

/-- For a node without type sub-terms the two probes are the same. -/
theorem Builder.canonicalize_eq_make_type (b : Builder) (n : Type_node)
    (hn : n.subterms = []) : b.canonicalize n = b.make_type n := by
  unfold Builder.canonicalize Builder.make_type
  rw [Builder.find_equivalent_eq_find_type _ n
    (fun m => Type_node.same_of_no_subterms _ m n hn)]

theorem Type_node.eq_of_label_subterms (m n : Type_node) (h1 : m.label = n.label)
    (h2 : m.subterms = n.subterms) : m = n := by
  cases m <;> cases n <;> simp [Type_node.label] at h1 <;>
    simp [Type_node.subterms] at h2 <;> simp [h1, h2]

theorem all_equivalent_eq_decide (e : Addr → Addr → Bool) :
    ∀ (xs ys : List Addr), (∀ x ∈ xs, ∀ y ∈ ys, e x y = decide (x = y)) →
      all_equivalent e xs ys = decide (xs = ys) := by
  intro xs
  induction xs with
  | nil => intro ys _; cases ys <;> simp [all_equivalent]
  | cons a as ih =>
    intro ys h
    cases ys with
    | nil => simp [all_equivalent]
    | cons b bs =>
      simp only [all_equivalent]
      rw [h a (List.mem_cons_self a as) b (List.mem_cons_self b bs),
        ih bs (fun x hx y hy => h x (List.mem_cons_of_mem a hx) y (List.mem_cons_of_mem b hy))]
      simp

theorem Builder.find_equivalent_eq_find_type_of_mem (p : Type_node → Bool) (n : Type_node) :
    ∀ l : List Type_node, (∀ m ∈ l, p m = decide (m = n)) →
      Builder.find_equivalent p l = Builder.find_type n l := by
  intro l
  induction l with
  | nil => intro _; rfl
  | cons m ms ih =>
    intro hp
    unfold Builder.find_equivalent Builder.find_type
    rw [ih (fun k hk => hp k (List.mem_cons_of_mem m hk)), hp m (List.mem_cons_self m ms)]
    by_cases h : m = n <;> simp [h]

/-- In a store without two equivalent nodes the two probes are the same. -/
theorem Builder.canonicalize_eq_make_type_of_unique (b : Builder) (n : Type_node)
    (hwf : Well_formed b.types) (hu : Unique_types b.types)
    (hn : ∀ x ∈ n.subterms, x < b.types.length) : b.canonicalize n = b.make_type n := by
  have he : ∀ x y : Addr, x < b.types.length → y < b.types.length →
      is_equivalent b.types x y = decide (x = y) := by
    intro x y hx _
    by_cases hxy : x = y
    · subst hxy
      rw [is_equivalent_refl b.types hwf x hx]
      simp
    · cases h : is_equivalent b.types x y with
      | false => simp [hxy]
      | true => exact absurd (hu x y h) hxy
  unfold Builder.canonicalize Builder.make_type
  rw [Builder.find_equivalent_eq_find_type_of_mem _ n]
  intro m hm
  obtain ⟨j, hj, hjm⟩ := List.getElem_of_mem hm
  have hmj : b.types[j]? = some m := by rw [List.getElem?_eq_getElem hj, hjm]
  unfold Type_node.same
  rw [all_equivalent_eq_decide _ _ _
    (fun x hx y hy => he x y (hwf.lt_length hmj hx) (hn y hy))]
  by_cases hmn : m = n
  · subst hmn
    simp
  · have : ¬ (m.label = n.label ∧ m.subterms = n.subterms) :=
      fun h => hmn (Type_node.eq_of_label_subterms m n h.1 h.2)
    simp only [hmn, decide_False, Bool.and_eq_false_iff, decide_eq_false_iff_not]
    by_cases hl : m.label = n.label
    · exact Or.inr (fun hs => this ⟨hl, hs⟩)
    · exact Or.inl hl

/-! #### Nodes that stay -/

theorem Keeps.refl (l : List Type_node) : Keeps l l :=
  fun _ m h => ⟨m, h, fun _ => rfl, fun hq => hq⟩

theorem Keeps.trans {l1 l2 l3 : List Type_node} (h12 : Keeps l1 l2) (h23 : Keeps l2 l3) :
    Keeps l1 l3 := by
  intro i m hm
  obtain ⟨m2, hm2, hn2, hq2⟩ := h12 i m hm
  obtain ⟨m3, hm3, hn3, hq3⟩ := h23 i m2 hm2
  refine ⟨m3, hm3, ?_, ?_⟩
  · intro hq
    have h2 : m2 = m := hn2 hq
    subst h2
    exact hn3 hq
  · intro hq
    exact hq3 (hq2 hq)

theorem Keeps.append (l : List Type_node) (n : Type_node) : Keeps l (l ++ [n]) := by
  intro i m hm
  have hi : i < l.length := (List.getElem?_eq_some.mp hm).1
  exact ⟨m, by rw [List.getElem?_append_left hi]; exact hm, fun _ => rfl, fun hq => hq⟩

theorem Keeps.set_qualified (l : List Type_node) (t : Nat) (u u2 : Addr)
    (q q2 : Qualifier_set) (ht : l[t]? = some (.Qualified_type u q)) :
    Keeps l (l.set t (.Qualified_type u2 q2)) := by
  intro i m hm
  by_cases hit : t = i
  · subst hit
    have hlt : t < l.length := (List.getElem?_eq_some.mp ht).1
    refine ⟨.Qualified_type u2 q2, by rw [List.getElem?_set]; simp [hlt], ?_, fun _ => rfl⟩
    intro hq
    rw [ht] at hm
    cases hm
    simp [Type_node.is_qualified] at hq
  · exact ⟨m, by rw [List.getElem?_set_ne hit]; exact hm, fun _ => rfl, fun hq => hq⟩

theorem Builder.make_type_keeps (b : Builder) (n : Type_node) :
    Keeps b.types (b.make_type n).2.types := by
  rcases (Builder.make_type_spec b n).2.2.2 with h | ⟨h, _, _⟩
  · rw [h]; exact Keeps.refl _
  · rw [h]; exact Keeps.append _ _

theorem Builder.canonicalize_keeps (b : Builder) (n : Type_node) :
    Keeps b.types (b.canonicalize n).2.types := by
  rcases Builder.canonicalize_types b n with h | h
  · rw [h]; exact Keeps.refl _
  · rw [h]; exact Keeps.append _ _

theorem Builder.get_qualified_type_keeps (b : Builder) (t : Addr) (qual : Qualifier_set) :
    Keeps b.types (b.get_qualified_type t qual).2.types := by
  unfold Builder.get_qualified_type
  split
  · rename_i u q ht
    exact Keeps.set_qualified _ _ _ _ _ _ ht
  · exact Builder.make_type_keeps b _

theorem Builder.Later.keeps {b c : Builder} (h : Builder.Later b c) :
    Keeps b.types c.types := by
  induction h with
  | refl => exact Keeps.refl _
  | make_type c n _ ih => exact ih.trans (Builder.make_type_keeps c n)
  | canonicalize c n _ ih => exact ih.trans (Builder.canonicalize_keeps c n)
  | get_qualified_type c t qual _ ih => exact ih.trans (Builder.get_qualified_type_keeps c t qual)
  | other c d _ hd ih => rw [hd]; exact ih

/-- A node that is not a `Qualified_type` stays the first of its kind. -/
theorem Keeps.find_type {l l2 : List Type_node} (h : Keeps l l2) (n : Type_node)
    (hn : n.is_qualified = false) (i : Nat) (hf : Builder.find_type n l = some i) :
    Builder.find_type n l2 = some i := by
  obtain ⟨h1, h2⟩ := (Builder.find_type_iff n l i).mp hf
  rw [Builder.find_type_iff]
  constructor
  · obtain ⟨m2, hm2, hk, _⟩ := h i n h1
    rw [hm2, hk hn]
  · intro j hj hcon
    have hjl : j < l.length := Nat.lt_trans hj (List.getElem?_eq_some.mp h1).1
    have hjm : l[j]? = some (l[j]) := List.getElem?_eq_getElem hjl
    obtain ⟨m2, hm2, hk, hq⟩ := h j _ hjm
    rw [hm2] at hcon
    cases hcon
    cases hqm : (l[j]).is_qualified with
    | false =>
      have := hk hqm
      exact h2 j hj (by rw [hjm, ← this])
    | true =>
      have := hq hqm
      rw [hn] at this
      cases this

/-- Canonical nodes: a type that is not a `Qualified_type`, requested again at
any later time, is the node returned the first time, and the request changes
nothing. -/
theorem Builder.make_type_again (b c : Builder) (n : Type_node)
    (hn : n.is_qualified = false) (hc : Builder.Later (b.make_type n).2 c) :
    c.make_type n = ((b.make_type n).1, c) :=
  Builder.make_type_of_find c n _
    (hc.keeps.find_type n hn _ (Builder.make_type_spec b n).1)

theorem Well_formed.nil : Well_formed [] := by
  intro i m hm
  simp at hm

theorem Builder.make_type_types (b : Builder) (n : Type_node) :
    (b.make_type n).2.types = b.types ∨ (b.make_type n).2.types = b.types ++ [n] := by
  unfold Builder.make_type
  split
  · exact Or.inl rfl
  · exact Or.inr rfl

/-- The builders keep the store well-formed when they are given types that
exist. -/
theorem Builder.make_type_well_formed (b : Builder) (n : Type_node)
    (hwf : Well_formed b.types) (hn : ∀ x ∈ n.subterms, x < b.types.length) :
    Well_formed (b.make_type n).2.types := by
  rcases Builder.make_type_types b n with h | h
  · rw [h]; exact hwf
  · rw [h]; exact hwf.with_node n hn

theorem Builder.get_qualified_type_well_formed (b : Builder) (t : Addr)
    (qual : Qualifier_set) (hwf : Well_formed b.types) (ht : t < b.types.length) :
    Well_formed (b.get_qualified_type t qual).2.types := by
  unfold Builder.get_qualified_type
  split
  · rename_i u q hq
    intro i m hm x hx
    by_cases hit : t = i
    · subst hit
      have hm2 : (b.types.set t (.Qualified_type u (q ||| qual)))[t]? = some m := hm
      rw [List.getElem?_set, if_pos rfl] at hm2
      simp only [ht, if_true, Option.some.injEq] at hm2
      subst hm2
      exact hwf t _ hq x hx
    · have hm2 : (b.types.set t (.Qualified_type u (q ||| qual)))[i]? = some m := hm
      rw [List.getElem?_set_ne hit] at hm2
      exact hwf i m hm2 x hx
  · apply Builder.make_type_well_formed b _ hwf
    intro x hx
    simp only [Type_node.subterms, List.mem_singleton] at hx
    rw [hx]
    exact ht


/-- A builder that is `canonicalize` of the node it asks for returns the
identical node for structurally equivalent arguments. -/
theorem Builder.canonicalize_canonical {A : Type} (node : A → Type_node) :
    Canonical_type_builder node (fun b a => b.canonicalize (node a)) := by
  intro b a hwf hn
  obtain ⟨h1, _, h3, h4⟩ := Builder.canonicalize_spec b (node a) hwf hn
  exact ⟨h1, h3, h4,
    fun c a2 hpre he => Builder.canonicalize_again b c (node a) (node a2) hwf hn hpre he⟩

/-- Claim C2, counterexample.  After a qualifier merge a type builder returns
another node than before for the same request.

Pointer to const int, asked for twice, is two nodes.  `get_pointer_type` of
the const int, node 1, makes node 2.  `get_volatile_type` of node 1 then
merges volatile into node 1 in place, so node 2 now points to const volatile
int.  `get_const_type` of the int type makes a new const int, node 3, which
has the variant, the qualifier set and the underlying type that node 1 had
at the first call, and `get_pointer_type` of it returns node 4, not node 2.
No probe of the table can return node 2 for it, whose pointee is another
type by now, and a `make` that allocates on every call returns two nodes as
well.

The same argument, passed twice, gets two nodes as well.  In the store of the
last four conjuncts, which ten builder calls make, node 6 is equivalent to
node 5 and the pointer to node 6 is node 7, so `get_pointer_type` of node 5
returns node 7.  `get_volatile_type` of node 5 then merges volatile into it,
no node is a pointer to such a type, and `get_pointer_type` of node 5 makes
node 8. -/
theorem type_builders_differ_after_merge :
    (Builder.init.get_int_type.2.get_const_type 0) =
      (1, { types := [.Integer_type true 32, .Qualified_type 0 const_qual], decls := [] }) ∧
    Builder.get_pointer_type
      { types := [.Integer_type true 32, .Qualified_type 0 const_qual], decls := [] } 1 =
      (2, { types := [.Integer_type true 32, .Qualified_type 0 const_qual, .Pointer_type 1],
            decls := [] }) ∧
    Builder.get_volatile_type
      { types := [.Integer_type true 32, .Qualified_type 0 const_qual, .Pointer_type 1],
        decls := [] } 1 =
      (1, { types := [.Integer_type true 32, .Qualified_type 0 3, .Pointer_type 1],
            decls := [] }) ∧
    Builder.get_const_type
      { types := [.Integer_type true 32, .Qualified_type 0 3, .Pointer_type 1],
        decls := [] } 0 =
      (3, { types := [.Integer_type true 32, .Qualified_type 0 3, .Pointer_type 1,
                      .Qualified_type 0 const_qual],
            decls := [] }) ∧
    Builder.get_pointer_type
      { types := [.Integer_type true 32, .Qualified_type 0 3, .Pointer_type 1,
                  .Qualified_type 0 const_qual],
        decls := [] } 3 =
      (4, { types := [.Integer_type true 32, .Qualified_type 0 3, .Pointer_type 1,
                      .Qualified_type 0 const_qual, .Pointer_type 3],
            decls := [] }) ∧
    ((((((((((Builder.init.get_int_type.2.get_const_type 0).2.get_volatile_type
      1).2.get_const_type 0).2.get_pointer_type 2).2.get_pointer_type 1).2.get_const_type
      3).2.get_const_type 4).2.get_pointer_type 6).2.get_volatile_type 2).2 =
      { types := [.Integer_type true 32, .Qualified_type 0 3, .Qualified_type 0 3,
                  .Pointer_type 2, .Pointer_type 1, .Qualified_type 3 const_qual,
                  .Qualified_type 4 const_qual, .Pointer_type 6],
        decls := [] }) ∧
    Builder.get_pointer_type
      { types := [.Integer_type true 32, .Qualified_type 0 3, .Qualified_type 0 3,
                  .Pointer_type 2, .Pointer_type 1, .Qualified_type 3 const_qual,
                  .Qualified_type 4 const_qual, .Pointer_type 6],
        decls := [] } 5 =
      (7, { types := [.Integer_type true 32, .Qualified_type 0 3, .Qualified_type 0 3,
                      .Pointer_type 2, .Pointer_type 1, .Qualified_type 3 const_qual,
                      .Qualified_type 4 const_qual, .Pointer_type 6],
            decls := [] }) ∧
    Builder.get_volatile_type
      { types := [.Integer_type true 32, .Qualified_type 0 3, .Qualified_type 0 3,
                  .Pointer_type 2, .Pointer_type 1, .Qualified_type 3 const_qual,
                  .Qualified_type 4 const_qual, .Pointer_type 6],
        decls := [] } 5 =
      (5, { types := [.Integer_type true 32, .Qualified_type 0 3, .Qualified_type 0 3,
                      .Pointer_type 2, .Pointer_type 1, .Qualified_type 3 3,
                      .Qualified_type 4 const_qual, .Pointer_type 6],
            decls := [] }) ∧
    Builder.get_pointer_type
      { types := [.Integer_type true 32, .Qualified_type 0 3, .Qualified_type 0 3,
                  .Pointer_type 2, .Pointer_type 1, .Qualified_type 3 3,
                  .Qualified_type 4 const_qual, .Pointer_type 6],
        decls := [] } 5 =
      (8, { types := [.Integer_type true 32, .Qualified_type 0 3, .Qualified_type 0 3,
                      .Pointer_type 2, .Pointer_type 1, .Qualified_type 3 3,
                      .Qualified_type 4 const_qual, .Pointer_type 6, .Pointer_type 5],
            decls := [] }) := by
  decide

/-- Claim C2, as amended.  While the type table only grows, that is, as long
as no qualifier is merged into an existing `Qualified_type` node between the
two calls, `get_pointer_type`, `get_reference_type`, `get_slice_type`,
`get_function_type` and `get_integer_type` return the identical node for
structurally equivalent arguments: the node of the first call is in the
table and is equivalent to the request, and a later call with equivalent
arguments returns that node and adds nothing (`Canonical_type_builder`).  An
integer type has no sub-term a merge could change, so `get_integer_type(s, p)`
returns its node again at any later time, merges included, and
`get_int_type` returns the node of `get_integer_type(true, 32)`. -/
theorem type_builders_canonical (b c : Builder) (s : Bool) (p : Int) :
    Canonical_type_builder (fun t => Type_node.Pointer_type t) Builder.get_pointer_type ∧
    Canonical_type_builder (fun t => Type_node.Reference_type t) Builder.get_reference_type ∧
    Canonical_type_builder (fun t => Type_node.Slice_type t) Builder.get_slice_type ∧
    Canonical_type_builder (fun a : List Addr × Addr => Type_node.Function_type a.1 a.2)
      (fun b a => b.get_function_type a.1 a.2) ∧
    Canonical_type_builder (fun a : Bool × Int => Type_node.Integer_type a.1 a.2)
      (fun b a => b.get_integer_type a.1 a.2) ∧
    (Builder.Later (b.get_integer_type s p).2 c →
      c.get_integer_type s p = ((b.get_integer_type s p).1, c)) ∧
    (Builder.Later (b.get_integer_type true 32).2 c →
      c.get_int_type = ((b.get_integer_type true 32).1, c)) ∧
    (b.get_integer_type s p).2.types[(b.get_integer_type s p).1]? =
      some (.Integer_type s p) := by
  refine ⟨Builder.canonicalize_canonical _, Builder.canonicalize_canonical _,
    Builder.canonicalize_canonical _, Builder.canonicalize_canonical _, ?_,
    Builder.make_type_again b c _ rfl, Builder.make_type_again b c _ rfl,
    (Builder.make_type_spec b _).2.1⟩
  have h : (fun (b : Builder) (a : Bool × Int) => b.get_integer_type a.1 a.2) =
      fun b a => b.canonicalize (.Integer_type a.1 a.2) := by
    funext b a
    exact (Builder.canonicalize_eq_make_type b (.Integer_type a.1 a.2) rfl).symm
  rw [h]
  exact Builder.canonicalize_canonical _

/-- Witness for claim C2: a store with two equal `Qualified_type` nodes, 1
and 2, such as a qualifier merge leaves behind.  They are equivalent, and
`get_pointer_type` returns node 3 for both. -/
theorem type_builders_canonical_witness :
    is_equivalent
      [.Integer_type true 32, .Qualified_type 0 3, .Qualified_type 0 3, .Pointer_type 1]
      1 2 = true ∧
    Builder.get_pointer_type
      { types := [.Integer_type true 32, .Qualified_type 0 3, .Qualified_type 0 3],
        decls := [] } 1 =
      (3, { types := [.Integer_type true 32, .Qualified_type 0 3, .Qualified_type 0 3,
                      .Pointer_type 1],
            decls := [] }) ∧
    Builder.get_pointer_type
      { types := [.Integer_type true 32, .Qualified_type 0 3, .Qualified_type 0 3,
                  .Pointer_type 1],
        decls := [] } 2 =
      (3, { types := [.Integer_type true 32, .Qualified_type 0 3, .Qualified_type 0 3,
                      .Pointer_type 1],
            decls := [] }) := by
  have hwf : Well_formed
      [.Integer_type true 32, .Qualified_type 0 3, .Qualified_type 0 3] := by
    intro i m hm x hx
    rcases i with _ | _ | _ | i
    · simp only [List.getElem?_cons_zero, Option.some.injEq] at hm
      subst hm
      simp [Type_node.subterms] at hx
    · simp only [List.getElem?_cons_succ, List.getElem?_cons_zero, Option.some.injEq] at hm
      subst hm
      simp only [Type_node.subterms, List.mem_singleton] at hx
      rw [hx]
      decide
    · simp only [List.getElem?_cons_succ, List.getElem?_cons_zero, Option.some.injEq] at hm
      subst hm
      simp only [Type_node.subterms, List.mem_singleton] at hx
      rw [hx]
      decide
    · simp at hm
  have h1 : Builder.get_pointer_type
      { types := [.Integer_type true 32, .Qualified_type 0 3, .Qualified_type 0 3],
        decls := [] } 1 =
      (3, { types := [.Integer_type true 32, .Qualified_type 0 3, .Qualified_type 0 3,
                      .Pointer_type 1],
            decls := [] }) := by decide
  refine ⟨by decide, h1, ?_⟩
  have h2 := (type_builders_canonical Builder.init Builder.init true 32).1
    { types := [.Integer_type true 32, .Qualified_type 0 3, .Qualified_type 0 3],
      decls := [] } 1 hwf
    (by
      intro x hx
      simp only [Type_node.subterms, List.mem_singleton] at hx
      rw [hx]
      decide)
  rw [h1] at h2
  exact h2.2.2.2 _ 2 (List.prefix_refl _) (by decide)

theorem List.set_of_getElem? {α : Type} (l : List α) (i : Nat) (x : α)
    (h : l[i]? = some x) : l.set i x = l := by
  apply List.ext_getElem?
  intro j
  rw [List.getElem?_set]
  split
  · rename_i hij
    subst hij
    have := (List.getElem?_eq_some.mp h).1
    simp [this, h]
  · rfl

/-- The merge branch of `get_qualified_type`. -/
theorem Builder.get_qualified_type_merge (b : Builder) (q u : Addr) (A B : Qualifier_set)
    (hq : b.types[q]? = some (.Qualified_type u A)) :
    b.get_qualified_type q B =
      (q, { b with types := b.types.set q (.Qualified_type u (A ||| B)) }) := by
  unfold Builder.get_qualified_type
  rw [hq]

/-- The wrapping branch of `get_qualified_type`. -/
theorem Builder.get_qualified_type_wrap (b : Builder) (t : Addr) (n : Type_node)
    (A : Qualifier_set) (ht : b.types[t]? = some n) (hn : n.is_qualified = false) :
    b.get_qualified_type t A = b.make_type (.Qualified_type t A) := by
  unfold Builder.get_qualified_type
  rw [ht]
  cases n <;> first | rfl | (simp [Type_node.is_qualified] at hn)

theorem Builder.getElem?_set_self (l : List Type_node) (i : Nat) (m x : Type_node)
    (h : l[i]? = some m) : (l.set i x)[i]? = some x := by
  have := (List.getElem?_eq_some.mp h).1
  rw [List.getElem?_set]
  simp [this]

/-- Claim C3, counterexample.  Take `t` the int type (position 0), `A` const
and `B` volatile.  When `get_qualified_type(t, A ∪ B)` has been asked for
first, it is node 1; the nested call then wraps `t` in the new node 2 and
merges `B` into it, and a further `get_qualified_type(t, A ∪ B)` still
returns node 1.  Nodes 1 and 2 end up with the same contents, yet they are
two nodes. -/
theorem qualify_nested_not_reference_equal :
    (Builder.init.get_int_type).2.types[0]? = some (.Integer_type true 32) ∧
    ((Builder.init.get_int_type).2.get_qualified_type 0 (const_qual ||| volatile_qual)).1 = 1 ∧
    ((((Builder.init.get_int_type).2.get_qualified_type 0
        (const_qual ||| volatile_qual)).2.get_qualified_type 0 const_qual).2.get_qualified_type
          (((Builder.init.get_int_type).2.get_qualified_type 0
            (const_qual ||| volatile_qual)).2.get_qualified_type 0 const_qual).1
          volatile_qual).1 = 2 ∧
    (((((Builder.init.get_int_type).2.get_qualified_type 0
        (const_qual ||| volatile_qual)).2.get_qualified_type 0 const_qual).2.get_qualified_type
          (((Builder.init.get_int_type).2.get_qualified_type 0
            (const_qual ||| volatile_qual)).2.get_qualified_type 0 const_qual).1
          volatile_qual).2.get_qualified_type 0 (const_qual ||| volatile_qual)).1 = 1 ∧
    ((((Builder.init.get_int_type).2.get_qualified_type 0
        (const_qual ||| volatile_qual)).2.get_qualified_type 0 const_qual).2.get_qualified_type
          (((Builder.init.get_int_type).2.get_qualified_type 0
            (const_qual ||| volatile_qual)).2.get_qualified_type 0 const_qual).1
          volatile_qual).2.types =
      [.Integer_type true 32, .Qualified_type 0 (const_qual ||| volatile_qual),
       .Qualified_type 0 (const_qual ||| volatile_qual)] ∧
    ¬ (∀ (b : Builder) (t : Addr) (n : Type_node) (A B : Qualifier_set),
        b.types[t]? = some n → n.is_qualified = false →
        ((b.get_qualified_type t A).2.get_qualified_type (b.get_qualified_type t A).1 B).1 =
          (((b.get_qualified_type t A).2.get_qualified_type
            (b.get_qualified_type t A).1 B).2.get_qualified_type t (A ||| B)).1) := by
  refine ⟨by decide, by decide, by decide, by decide, by decide, ?_⟩
  intro h
  have h2 := h ((Builder.init.get_int_type).2.get_qualified_type 0
    (const_qual ||| volatile_qual)).2 0 (.Integer_type true 32) const_qual volatile_qual
    (by decide) (by decide)
  revert h2
  decide

/-- Claim C3, amended.  For a type `t` that is not a `Qualified_type`:
`get_qualified_type(get_qualified_type(t, A), B)` returns the node of the
inner call, which then is a `Qualified_type` over `t` with the set `A ∪ B`;
`get_qualified_type(t, A ∪ B)` returns a node with the same underlying type
and the same set; and the two are the same node when `B` adds no qualifier
to `A`. -/
theorem qualify_nested_equivalent (b : Builder) (t : Addr) (n : Type_node)
    (A B : Qualifier_set) (ht : b.types[t]? = some n) (hn : n.is_qualified = false) :
    ((b.get_qualified_type t A).2.get_qualified_type (b.get_qualified_type t A).1 B).1 =
      (b.get_qualified_type t A).1 ∧
    ((b.get_qualified_type t A).2.get_qualified_type (b.get_qualified_type t A).1 B).2.types[
      ((b.get_qualified_type t A).2.get_qualified_type (b.get_qualified_type t A).1 B).1]? =
      some (.Qualified_type t (A ||| B)) ∧
    (((b.get_qualified_type t A).2.get_qualified_type
        (b.get_qualified_type t A).1 B).2.get_qualified_type t (A ||| B)).2.types[
      (((b.get_qualified_type t A).2.get_qualified_type
        (b.get_qualified_type t A).1 B).2.get_qualified_type t (A ||| B)).1]? =
      some (.Qualified_type t (A ||| B)) ∧
    (A ||| B = A →
      (((b.get_qualified_type t A).2.get_qualified_type
        (b.get_qualified_type t A).1 B).2.get_qualified_type t (A ||| B)).1 =
      ((b.get_qualified_type t A).2.get_qualified_type (b.get_qualified_type t A).1 B).1) := by
  have h1 := Builder.get_qualified_type_wrap b t n A ht hn
  obtain ⟨hfind, hget, _, _⟩ := Builder.make_type_spec b (.Qualified_type t A)
  rw [← h1] at hfind hget
  have h2 := Builder.get_qualified_type_merge _ _ _ _ B hget
  have hk1 : Keeps b.types (b.get_qualified_type t A).2.types :=
    Builder.get_qualified_type_keeps b t A
  have hk2 : Keeps (b.get_qualified_type t A).2.types
      ((b.get_qualified_type t A).2.get_qualified_type (b.get_qualified_type t A).1 B).2.types :=
    Builder.get_qualified_type_keeps _ _ _
  obtain ⟨m2, hm2, hkeep, _⟩ := (hk1.trans hk2) t n ht
  rw [hkeep hn] at hm2
  have h3 := Builder.get_qualified_type_wrap _ t n (A ||| B) hm2 hn
  refine ⟨?_, ?_, ?_, ?_⟩
  · rw [h2]
  · rw [h2]
    exact Builder.getElem?_set_self _ _ _ _ hget
  · rw [h3]
    exact (Builder.make_type_spec _ _).2.1
  · intro hAB
    rw [h3]
    have hsame : ((b.get_qualified_type t A).2.get_qualified_type
        (b.get_qualified_type t A).1 B).2.types = (b.get_qualified_type t A).2.types := by
      rw [h2, hAB]
      exact List.set_of_getElem? _ _ _ hget
    rw [Builder.make_type_of_find _ (.Qualified_type t (A ||| B)) (b.get_qualified_type t A).1]
    · rw [h2]
    · rw [hsame, hAB]
      exact hfind

/-- Witness for the amended claim C3: the int type, then const and volatile. -/
theorem qualify_nested_equivalent_witness :
    (Builder.init.get_int_type).2.types[0]? = some (.Integer_type true 32) ∧
    (((Builder.init.get_int_type).2.get_qualified_type 0 const_qual).2.get_qualified_type
      ((Builder.init.get_int_type).2.get_qualified_type 0 const_qual).1 volatile_qual).2.types[
      (((Builder.init.get_int_type).2.get_qualified_type 0 const_qual).2.get_qualified_type
      ((Builder.init.get_int_type).2.get_qualified_type 0 const_qual).1 volatile_qual).1]? =
      some (.Qualified_type 0 (const_qual ||| volatile_qual)) :=
  ⟨by decide,
   (qualify_nested_equivalent (Builder.init.get_int_type).2 0 (.Integer_type true 32)
      const_qual volatile_qual (by decide) (by decide)).2.1⟩

/-- Claim C4.  For an existing `Qualified_type` node `q` with set `A` over
`u`, `get_qualified_type(q, B)` returns `q`, allocates nothing, leaves every
other node and the declarations alone, and `q` then has the set `A ∪ B` over
the same `u`.  Asking again with the same `B` changes nothing at all.  And
for a type `t` that is not qualified, `get_volatile_type(get_const_type(t))`
is the node `get_const_type(t)` returned, no node is allocated for the
volatile qualifier, and the node is a `Qualified_type` over `t` with both
bits. -/
theorem qualified_type_merges_in_place (b : Builder) (q u : Addr) (A B : Qualifier_set)
    (hq : b.types[q]? = some (.Qualified_type u A)) :
    (b.get_qualified_type q B).1 = q ∧
    (b.get_qualified_type q B).2.types.length = b.types.length ∧
    (b.get_qualified_type q B).2.types[q]? = some (.Qualified_type u (A ||| B)) ∧
    (∀ a : Addr, a ≠ q → (b.get_qualified_type q B).2.types[a]? = b.types[a]?) ∧
    (b.get_qualified_type q B).2.decls = b.decls ∧
    (b.get_qualified_type q B).2.get_qualified_type q B = (q, (b.get_qualified_type q B).2) ∧
    (∀ (t : Addr) (n : Type_node), b.types[t]? = some n → n.is_qualified = false →
      ((b.get_const_type t).2.get_volatile_type (b.get_const_type t).1).1 =
        (b.get_const_type t).1 ∧
      ((b.get_const_type t).2.get_volatile_type (b.get_const_type t).1).2.types.length =
        (b.get_const_type t).2.types.length ∧
      ((b.get_const_type t).2.get_volatile_type (b.get_const_type t).1).2.types[
        ((b.get_const_type t).2.get_volatile_type (b.get_const_type t).1).1]? =
        some (.Qualified_type t (const_qual ||| volatile_qual))) := by
  have h := Builder.get_qualified_type_merge b q u A B hq
  have hset : (b.types.set q (.Qualified_type u (A ||| B)))[q]? =
      some (.Qualified_type u (A ||| B)) := Builder.getElem?_set_self _ _ _ _ hq
  refine ⟨by rw [h], by rw [h]; simp, by rw [h]; exact hset, ?_, by rw [h], ?_, ?_⟩
  · intro a ha
    rw [h]
    exact List.getElem?_set_ne (Ne.symm ha)
  · rw [h]
    rw [Builder.get_qualified_type_merge _ q u (A ||| B) B hset]
    simp only [List.set_set, Nat.or_assoc, Nat.or_self]
  · intro t n ht hn
    have h1 := Builder.get_qualified_type_wrap b t n const_qual ht hn
    obtain ⟨_, hget, _, _⟩ := Builder.make_type_spec b (.Qualified_type t const_qual)
    rw [← h1] at hget
    have h2 := Builder.get_qualified_type_merge _ _ _ _ volatile_qual hget
    unfold Builder.get_volatile_type Builder.get_const_type
    refine ⟨by rw [h2], by rw [h2]; simp, ?_⟩
    rw [h2]
    exact Builder.getElem?_set_self _ _ _ _ hget

/-- Witness for claim C4: the int type is node 0, its const-qualified type is
node 1, and qualifying node 1 volatile returns node 1 with both bits and
allocates nothing. -/
theorem qualified_type_merges_in_place_witness :
    (Builder.init.get_int_type).2.get_const_type 0 =
      (1, { types := [.Integer_type true 32, .Qualified_type 0 const_qual], decls := [] }) ∧
    (((Builder.init.get_int_type).2.get_const_type 0).2.get_volatile_type 1) =
      (1, { types := [.Integer_type true 32, .Qualified_type 0 3], decls := [] }) ∧
    (((Builder.init.get_int_type).2.get_const_type 0).2.get_qualified_type 1 volatile_qual).1 = 1 :=
  ⟨by decide, by decide,
   (qualified_type_merges_in_place ((Builder.init.get_int_type).2.get_const_type 0).2 1 0
      const_qual volatile_qual (by decide)).1⟩

/-! ### Values -/

/-- Claim C5.  A Value constructed from a payload of a variant reports the
kind of that variant and the matching extractor returns the payload: for an
`Integer_value`, a `Float_value`, a `Function_value`, an `Array_value`, a
`Dynarray_value`, a `Tuple_value`, and for a pointer `p` to a Value that is
not a reference, for which the construction succeeds.  A default-constructed
Value has kind `error_value`. -/
theorem value_constructor_extractor_roundtrip (n : Integer_value) (fp : Float_value)
    (f : Function_value) (a : Array_value) (d : Dynarray_value) (t : Tuple_value)
    (mem : Value_memory) (p : Reference_value) (pointee : Value)
    (hp : mem[p]? = some pointee) (hr : pointee.is_reference = false) :
    ((Value.of_integer n).kind = .integer_value ∧ (Value.of_integer n).get_integer = .ok n) ∧
    ((Value.of_float fp).kind = .float_value ∧ (Value.of_float fp).get_float = .ok fp) ∧
    ((Value.of_function f).kind = .function_value ∧
      (Value.of_function f).get_function = .ok f) ∧
    ((Value.of_array a).kind = .array_value ∧ (Value.of_array a).get_array = .ok a) ∧
    ((Value.of_dynarray d).kind = .dynarray_value ∧
      (Value.of_dynarray d).get_dynarray = .ok d) ∧
    ((Value.of_tuple t).kind = .tuple_value ∧ (Value.of_tuple t).get_tuple = .ok t) ∧
    (∃ v, Value.of_reference mem p = .ok v ∧ v.kind = .reference_value ∧
      v.get_reference = .ok p) ∧
    (Value.new.kind = .error_value ∧ Value.new.get_error = .ok {}) := by
  refine ⟨⟨rfl, rfl⟩, ⟨rfl, rfl⟩, ⟨rfl, rfl⟩, ⟨rfl, rfl⟩, ⟨rfl, rfl⟩, ⟨rfl, rfl⟩, ?_, ⟨rfl, rfl⟩⟩
  refine ⟨{ k := .reference_value, r := .ref_ p }, ?_, rfl, rfl⟩
  unfold Value.of_reference
  rw [hp]
  simp [hr]

/-- Witness for claim C5: a reference to the first value of a memory that
holds the integer 5. -/
theorem value_constructor_extractor_roundtrip_witness :
    [Value.of_integer 5][0]? = some (Value.of_integer 5) ∧
    (Value.of_integer 5).is_reference = false ∧
    (∃ v, Value.of_reference [Value.of_integer 5] 0 = .ok v ∧ v.kind = .reference_value ∧
      v.get_reference = .ok 0) :=
  ⟨rfl, rfl,
   (value_constructor_extractor_roundtrip 5 0 0 ⟨⟨0, 0⟩⟩ ⟨⟨0, 0⟩⟩ ⟨⟨0, 0⟩⟩
      [Value.of_integer 5] 0 (Value.of_integer 5) rfl rfl).2.2.2.2.2.2.1⟩

/-- Claim C6.  For every Value and each of the eight extractors: the
assertion of the extractor holds iff the kind of the value is the kind of the
extractor, and the call ends in the assertion failure, returning no payload,
iff the kind is another one. -/
theorem extractor_asserts_own_kind (v : Value) :
    ((v.is_error = true ↔ v.kind = .error_value) ∧
      (v.get_error = .error .assertion ↔ v.kind ≠ .error_value)) ∧
    ((v.is_integer = true ↔ v.kind = .integer_value) ∧
      (v.get_integer = .error .assertion ↔ v.kind ≠ .integer_value)) ∧
    ((v.is_float = true ↔ v.kind = .float_value) ∧
      (v.get_float = .error .assertion ↔ v.kind ≠ .float_value)) ∧
    ((v.is_function = true ↔ v.kind = .function_value) ∧
      (v.get_function = .error .assertion ↔ v.kind ≠ .function_value)) ∧
    ((v.is_reference = true ↔ v.kind = .reference_value) ∧
      (v.get_reference = .error .assertion ↔ v.kind ≠ .reference_value)) ∧
    ((v.is_array = true ↔ v.kind = .array_value) ∧
      (v.get_array = .error .assertion ↔ v.kind ≠ .array_value)) ∧
    ((v.is_dynarray = true ↔ v.kind = .dynarray_value) ∧
      (v.get_dynarray = .error .assertion ↔ v.kind ≠ .dynarray_value)) ∧
    ((v.is_tuple = true ↔ v.kind = .tuple_value) ∧
      (v.get_tuple = .error .assertion ↔ v.kind ≠ .tuple_value)) := by
  obtain ⟨k, r⟩ := v
  refine ⟨⟨?_, ?_⟩, ⟨?_, ?_⟩, ⟨?_, ?_⟩, ⟨?_, ?_⟩, ⟨?_, ?_⟩, ⟨?_, ?_⟩, ⟨?_, ?_⟩, ⟨?_, ?_⟩⟩ <;>
    cases k <;> cases r <;>
    simp [Value.kind, Value.is_error, Value.is_integer, Value.is_float, Value.is_function,
      Value.is_reference, Value.is_array, Value.is_dynarray, Value.is_tuple,
      Value.get_error, Value.get_integer, Value.get_float, Value.get_function,
      Value.get_reference, Value.get_array, Value.get_dynarray, Value.get_tuple]

/-! ### Type categorisation -/

/-- Qualifier layers do not change the result. -/
theorem is_value_type_strip : ∀ t : Type_, is_value_type t = is_value_type (strip_qualifiers t)
  | .Qualified_type t _ => by
    rw [strip_qualifiers, is_value_type]
    exact is_value_type_strip t
  | .Void_type => rfl
  | .Boolean_type => rfl
  | .Integer_type _ _ => rfl
  | .Byte_type => rfl
  | .Float_type => rfl
  | .Auto_type => rfl
  | .Decltype_type _ => rfl
  | .Declauto_type => rfl
  | .Function_type _ _ => rfl
  | .Pointer_type _ => rfl
  | .Reference_type _ => rfl
  | .Array_type _ _ => rfl
  | .Sequence_type _ => rfl
  | .Slice_type _ => rfl
  | .Dynarray_type _ _ => rfl
  | .In_type _ => rfl
  | .Out_type _ => rfl
  | .Mutable_type _ => rfl
  | .Consume_type _ => rfl
  | .Forward_type _ => rfl
  | .Pack_type _ => rfl
  | .Class_type _ => rfl
  | .Union_type _ => rfl
  | .Enum_type _ => rfl
  | .Typename_type _ => rfl
  | .Type_type => rfl
  | .Synthetic_type _ => rfl
  | .User_type _ => rfl

/-- What is left after stripping is not a `Qualified_type`. -/
theorem strip_qualifiers_not_qualified :
    ∀ (t u : Type_) (q : Qualifier_set), strip_qualifiers t ≠ .Qualified_type u q
  | .Qualified_type t _, u, q => by
    rw [strip_qualifiers]
    exact strip_qualifiers_not_qualified t u q
  | .Void_type, _, _ => by simp [strip_qualifiers]
  | .Boolean_type, _, _ => by simp [strip_qualifiers]
  | .Integer_type _ _, _, _ => by simp [strip_qualifiers]
  | .Byte_type, _, _ => by simp [strip_qualifiers]
  | .Float_type, _, _ => by simp [strip_qualifiers]
  | .Auto_type, _, _ => by simp [strip_qualifiers]
  | .Decltype_type _, _, _ => by simp [strip_qualifiers]
  | .Declauto_type, _, _ => by simp [strip_qualifiers]
  | .Function_type _ _, _, _ => by simp [strip_qualifiers]
  | .Pointer_type _, _, _ => by simp [strip_qualifiers]
  | .Reference_type _, _, _ => by simp [strip_qualifiers]
  | .Array_type _ _, _, _ => by simp [strip_qualifiers]
  | .Sequence_type _, _, _ => by simp [strip_qualifiers]
  | .Slice_type _, _, _ => by simp [strip_qualifiers]
  | .Dynarray_type _ _, _, _ => by simp [strip_qualifiers]
  | .In_type _, _, _ => by simp [strip_qualifiers]
  | .Out_type _, _, _ => by simp [strip_qualifiers]
  | .Mutable_type _, _, _ => by simp [strip_qualifiers]
  | .Consume_type _, _, _ => by simp [strip_qualifiers]
  | .Forward_type _, _, _ => by simp [strip_qualifiers]
  | .Pack_type _, _, _ => by simp [strip_qualifiers]
  | .Class_type _, _, _ => by simp [strip_qualifiers]
  | .Union_type _, _, _ => by simp [strip_qualifiers]
  | .Enum_type _, _, _ => by simp [strip_qualifiers]
  | .Typename_type _, _, _ => by simp [strip_qualifiers]
  | .Type_type, _, _ => by simp [strip_qualifiers]
  | .Synthetic_type _, _, _ => by simp [strip_qualifiers]
  | .User_type _, _, _ => by simp [strip_qualifiers]

/-- Claim C7.  Wherever `is_value_type` returns a result, it is the result
of the reference classifier; conversely the classifier's result is returned
for every type whose stripped form is not a `Slice_type` (for which the
function has no overload, `Sequence_type` being the variant it handles).  A
`Qualified_type` has the category of its underlying type, for any qualifiers
and through any number of layers, and a pointer to `Integer_type(true, 32)`
is a value type. -/
theorem is_value_type_agrees_with_classifier (t : Type_) (b : Bool) (q : Qualifier_set) :
    (is_value_type t = .ok b → reference_classifier t = some b) ∧
    (reference_classifier t = some b → (∀ u, strip_qualifiers t ≠ .Slice_type u) →
      is_value_type t = .ok b) ∧
    is_value_type (.Qualified_type t q) = is_value_type t ∧
    is_value_type t = is_value_type (strip_qualifiers t) ∧
    is_value_type (.Pointer_type (.Integer_type true 32)) = .ok true ∧
    is_value_type (.Qualified_type (.Qualified_type (.Pointer_type (.Integer_type true 32))
      const_qual) volatile_qual) = .ok true := by
  refine ⟨?_, ?_, rfl, is_value_type_strip t, rfl, rfl⟩
  · intro h
    rw [is_value_type_strip] at h
    unfold reference_classifier
    have hq := strip_qualifiers_not_qualified t
    cases hs : strip_qualifiers t <;> rw [hs] at h <;>
      simp [is_value_type] at h <;> first | (exact absurd hs (hq _ _)) | (simp [h])
  · intro h hslice
    rw [is_value_type_strip]
    unfold reference_classifier at h
    have hq := strip_qualifiers_not_qualified t
    cases hs : strip_qualifiers t <;> rw [hs] at h <;>
      simp at h <;> first | (exact absurd hs (hslice _)) | (simp [is_value_type, h])

/-- On every type whose form after stripping the `Qualified_type` layers is
a variant the visitor has an overload for, `is_value_type` ends: it fails iff
the stripped type is Auto, Declauto, Typename or Decltype, and returns a
truth value otherwise. -/
theorem is_value_type_total_on_overloads (t : Type_)
    (h : (strip_qualifiers t).has_overload = true) :
    ((∃ e, is_value_type t = .error e) ↔ (strip_qualifiers t).is_placeholder = true) ∧
    ((∃ b, is_value_type t = .ok b) ↔ (strip_qualifiers t).is_placeholder = false) := by
  rw [is_value_type_strip]
  have hq := strip_qualifiers_not_qualified t
  cases hs : strip_qualifiers t <;> rw [hs] at h <;>
    simp [Type_.has_overload] at h <;>
    first
      | (exact absurd hs (hq _ _))
      | (simp [is_value_type, Type_.is_placeholder])

/-! ### Template wrapping -/

theorem Builder.assign_cons_spec (b : Builder) (P : List Addr) (d : Addr)
    (c : Option Addr) :
    ((b.make_template P d).2.assign_cons (b.make_template P d).1 c).decls =
      b.decls ++ [.Template_decl P d c] ∧
    ((b.make_template P d).2.assign_cons (b.make_template P d).1 c).types = b.types := by
  have hget : (b.decls ++ [Decl_node.Template_decl P d none])[b.decls.length]? =
      some (.Template_decl P d none) := by simp
  unfold Builder.assign_cons Builder.make_template Builder.make_decl
  simp only [hget]
  constructor
  · apply List.ext_getElem?
    intro j
    rw [List.getElem?_set]
    by_cases hj : b.decls.length = j
    · subst hj
      simp
    · simp only [hj, if_false]
      by_cases hlt : j < b.decls.length
      · rw [List.getElem?_append_left hlt, List.getElem?_append_left hlt]
      · have hgt : b.decls.length < j := by omega
        rw [List.getElem?_eq_none (by simp; omega), List.getElem?_eq_none (by simp; omega)]
  · trivial

/-- What `templatize_declaration` does when a parameter list is pending. -/
theorem Parser.templatize_declaration_pending (p : Parser) (d : Addr) (P : List Addr)
    (h : p.state.template_parms = some P) :
    (p.templatize_declaration d).1 = p.build.decls.length ∧
    (p.templatize_declaration d).2.build.decls =
      p.build.decls ++ [.Template_decl P d p.state.template_cons] ∧
    (p.templatize_declaration d).2.build.types = p.build.types ∧
    (p.templatize_declaration d).2.state = { template_parms := none, template_cons := none } := by
  unfold Parser.templatize_declaration
  rw [h]
  cases hc : p.state.template_cons with
  | none =>
    simp only [hc]
    exact ⟨rfl, rfl, rfl, trivial⟩
  | some c =>
    simp only [hc]
    obtain ⟨h1, h2⟩ := Builder.assign_cons_spec p.build P d (some c)
    exact ⟨rfl, h1, h2, trivial⟩

/-- Claim C9.  With a pending parameter list `P`, `templatize_declaration(d)`
returns a newly allocated `Template_decl` that wraps `d` with the parameters
`P` and whose constraint is the pending constraint if one is pending; every
declaration made before, `d` included, is untouched, and afterwards neither a
parameter list nor a constraint is pending. -/
theorem templatize_declaration_wraps (p : Parser) (d : Addr) (P : List Addr)
    (h : p.state.template_parms = some P) :
    (p.templatize_declaration d).1 = p.build.decls.length ∧
    (∃ c, (p.templatize_declaration d).2.build.decls[(p.templatize_declaration d).1]? =
        some (.Template_decl P d c) ∧
      ∀ e, p.state.template_cons = some e → c = some e) ∧
    (∀ a : Addr, a < p.build.decls.length →
      (p.templatize_declaration d).2.build.decls[a]? = p.build.decls[a]?) ∧
    (p.templatize_declaration d).2.build.decls.length = p.build.decls.length + 1 ∧
    (p.templatize_declaration d).2.build.types = p.build.types ∧
    (p.templatize_declaration d).2.state.template_parms = none ∧
    (p.templatize_declaration d).2.state.template_cons = none := by
  obtain ⟨h1, h2, h3, h4⟩ := Parser.templatize_declaration_pending p d P h
  refine ⟨h1, ⟨p.state.template_cons, ?_, fun e he => he⟩, ?_, ?_, h3, ?_, ?_⟩
  · rw [h1, h2]
    simp
  · intro a ha
    rw [h2]
    exact List.getElem?_append_left ha
  · rw [h2]
    simp
  · rw [h4]
  · rw [h4]

/-- Witness for claim C9: a parser with one declaration, the pending
parameters `[7, 8]` and the pending constraint 9. -/
theorem templatize_declaration_wraps_witness :
    (Parser.templatize_declaration
      { build := { types := [], decls := [.Variable_decl 1 2 3] },
        state := { template_parms := some [7, 8], template_cons := some 9 } } 0) =
      (1, { build := { types := [],
                       decls := [.Variable_decl 1 2 3, .Template_decl [7, 8] 0 (some 9)] },
            state := { template_parms := none, template_cons := none } }) ∧
    (Parser.templatize_declaration
      { build := { types := [], decls := [.Variable_decl 1 2 3] },
        state := { template_parms := some [7, 8], template_cons := some 9 } } 0).1 = 1 :=
  ⟨by decide,
   (templatize_declaration_wraps
      { build := { types := [], decls := [.Variable_decl 1 2 3] },
        state := { template_parms := some [7, 8], template_cons := some 9 } } 0 [7, 8] rfl).1⟩

/-- Claim C10.  Without a pending parameter list `templatize_declaration(d)`
returns `d` and leaves the parser, builder and pending state, exactly as it
was.  After any call no parameter list is pending, so a second call, for any
other declaration, returns that declaration and changes nothing. -/
theorem templatize_declaration_without_parms (p : Parser) (d d2 : Addr) :
    (p.state.template_parms = none → p.templatize_declaration d = (d, p)) ∧
    (p.templatize_declaration d).2.state.template_parms = none ∧
    (p.templatize_declaration d).2.templatize_declaration d2 =
      (d2, (p.templatize_declaration d).2) := by
  have hnone : p.state.template_parms = none → p.templatize_declaration d = (d, p) := by
    intro h
    unfold Parser.templatize_declaration
    rw [h]
  have hafter : (p.templatize_declaration d).2.state.template_parms = none := by
    cases hp : p.state.template_parms with
    | none => rw [hnone hp]; exact hp
    | some P => rw [(Parser.templatize_declaration_pending p d P hp).2.2.2]
  refine ⟨hnone, hafter, ?_⟩
  unfold Parser.templatize_declaration at hafter ⊢
  rw [hafter]

/-- Witness for claim C10: a parser with nothing pending, and the parser of
the witness of C9, whose list is consumed by the first call. -/
theorem templatize_declaration_without_parms_witness :
    (Parser.templatize_declaration
      { build := { types := [], decls := [.Variable_decl 1 2 3] },
        state := { template_parms := none, template_cons := none } } 0) =
      (0, { build := { types := [], decls := [.Variable_decl 1 2 3] },
            state := { template_parms := none, template_cons := none } }) ∧
    (Parser.templatize_declaration
      (Parser.templatize_declaration
        { build := { types := [], decls := [.Variable_decl 1 2 3, .Variable_decl 4 5 6] },
          state := { template_parms := some [7, 8], template_cons := some 9 } } 0).2 1) =
      (1, { build := { types := [],
                       decls := [.Variable_decl 1 2 3, .Variable_decl 4 5 6,
                                 .Template_decl [7, 8] 0 (some 9)] },
            state := { template_parms := none, template_cons := none } }) :=
  ⟨(templatize_declaration_without_parms
      { build := { types := [], decls := [.Variable_decl 1 2 3] },
        state := { template_parms := none, template_cons := none } } 0 0).1 rfl,
   by decide⟩

/-! ### Definition linkage -/

/-- The successful branch of `define_entity`. -/
theorem define_entity_ok (b : Builder) (decl defn : Addr) (node : Decl_node)
    (hd : b.decls[b.parameterized_declaration decl]? = some node)
    (hk : node.is_function = true ∨ node.is_class = true) :
    define_entity b decl defn =
      .ok (defn,
        { b with
          decls := b.decls.set (b.parameterized_declaration decl) (node.with_definition defn) }) := by
  unfold define_entity
  simp only [hd]
  cases node <;> simp [Decl_node.is_function, Decl_node.is_class] at hk <;> rfl

/-- The failing branch of `define_entity`. -/
theorem define_entity_unhandled (b : Builder) (decl defn : Addr) (node : Decl_node)
    (hd : b.decls[b.parameterized_declaration decl]? = some node)
    (hf : node.is_function = false) (hc : node.is_class = false) :
    define_entity b decl defn = .error .unhandled := by
  unfold define_entity
  simp only [hd]
  cases node <;> simp [Decl_node.is_function, Decl_node.is_class] at hf hc <;> rfl

/-- A declaration that is not a template is its own parameterized declaration. -/
theorem Builder.parameterized_declaration_self (b : Builder) (decl : Addr) (x : Decl_node)
    (h : b.decls[decl]? = some x) (hx : x.is_function = true ∨ x.is_class = true) :
    b.parameterized_declaration decl = decl := by
  unfold Builder.parameterized_declaration
  rw [h]
  cases x <;> simp [Decl_node.is_function, Decl_node.is_class] at hx <;> rfl

/-- The parameterized declaration is read off the node at `decl` alone. -/
theorem Builder.parameterized_declaration_congr (b b2 : Builder) (decl : Addr)
    (h : b2.decls[decl]? = b.decls[decl]?) :
    b2.parameterized_declaration decl = b.parameterized_declaration decl := by
  unfold Builder.parameterized_declaration
  rw [h]

theorem Decl_node.with_definition_kind (defn : Addr) (x : Decl_node)
    (hx : x.is_function = true ∨ x.is_class = true) :
    ((x.with_definition defn).is_function = true ∨
      (x.with_definition defn).is_class = true) ∧
    (x.with_definition defn).definition = some defn := by
  cases x <;> simp [Decl_node.is_function, Decl_node.is_class] at hx <;>
    simp [Decl_node.with_definition, Decl_node.is_function, Decl_node.is_class,
      Decl_node.definition]

/-- The content of claim C11 with the parameterized declaration named `pd`. -/
theorem define_entity_stores_at (b : Builder) (st : State) (decl defn : Addr)
    (ds : List Addr) (node : Decl_node) (pd : Addr)
    (hpd : b.parameterized_declaration decl = pd)
    (hd : b.decls[pd]? = some node)
    (hk : node.is_function = true ∨ node.is_class = true) :
    (∃ b2, define_entity b decl defn = .ok (defn, b2) ∧
      b2.decls[pd]? = some (node.with_definition defn) ∧
      (node.with_definition defn).definition = some defn ∧
      b2.parameterized_declaration decl = pd ∧
      (∀ a : Addr, a ≠ pd → b2.decls[a]? = b.decls[a]?) ∧
      (∀ (P : List Addr) (d : Addr) (c : Option Addr),
        b.decls[decl]? = some (.Template_decl P d c) →
        pd = d ∧ b2.decls[decl]? = some (.Template_decl P d c)) ∧
      b2.decls.length = b.decls.length ∧ b2.types = b.types ∧ b2.defs = b.defs) ∧
    (∃ p2, Parser.on_class_definition { build := b, state := st } decl ds =
        .ok (b.defs.length, p2) ∧
      p2.build.defs = b.defs ++ [.Class_def ds] ∧
      p2.build.decls[pd]? = some (node.with_definition b.defs.length) ∧
      p2.state = st) := by
  have hd0 : b.decls[b.parameterized_declaration decl]? = some node := by rw [hpd]; exact hd
  have hok := define_entity_ok b decl defn node hd0 hk
  have hpd2 : (b.make_class_definition ds).2.parameterized_declaration decl = pd := hpd
  have hclass := define_entity_ok (b.make_class_definition ds).2 decl
    (b.make_class_definition ds).1 node (by rw [hpd2]; exact hd) hk
  rw [hpd] at hok
  rw [hpd2] at hclass
  have hlt : pd < b.decls.length := (List.getElem?_eq_some.mp hd).1
  have hset : ∀ x : Decl_node, (b.decls.set pd x)[pd]? = some x := by
    intro x
    rw [List.getElem?_set]
    simp [hlt]
  have hother : ∀ (x : Decl_node) (a : Addr), a ≠ pd → (b.decls.set pd x)[a]? = b.decls[a]? :=
    fun x a ha => List.getElem?_set_ne (Ne.symm ha)
  have htemplate : ∀ (P : List Addr) (d : Addr) (c : Option Addr),
      b.decls[decl]? = some (.Template_decl P d c) → pd = d ∧ decl ≠ pd := by
    intro P d c hT
    have hd2 : b.parameterized_declaration decl = d := by
      unfold Builder.parameterized_declaration
      rw [hT]
    have hpdd : pd = d := hpd.symm.trans hd2
    refine ⟨hpdd, ?_⟩
    intro hEq
    rw [← hEq, hT] at hd
    cases hd
    simp [Decl_node.is_function, Decl_node.is_class] at hk
  constructor
  · refine ⟨_, hok, hset _, (Decl_node.with_definition_kind defn node hk).2, ?_, hother _, ?_,
      ?_, rfl, rfl⟩
    · by_cases hEq : decl = pd
      · subst hEq
        exact Builder.parameterized_declaration_self _ decl _ (hset _)
          (Decl_node.with_definition_kind defn node hk).1
      · exact (Builder.parameterized_declaration_congr b _ decl (hother _ decl hEq)).trans hpd
    · intro P d c hT
      obtain ⟨hpdd, hne⟩ := htemplate P d c hT
      exact ⟨hpdd, (hother _ decl hne).trans hT⟩
    · show (b.decls.set pd _).length = _
      simp
  · unfold Parser.on_class_definition
    simp only [hclass]
    exact ⟨_, rfl, rfl, hset _, rfl⟩

/-- Claim C11.  When the parameterized (unwrapped) declaration of `decl` is a
`Function_decl` or a `Class_decl`, `define_entity(decl, def)` returns `def`
and stores it in the definition slot of the unwrapped declaration, from which
it is read back; every other declaration, a `Template_decl` wrapper included,
and the types and definitions are left as they were.  `on_class_definition`
attaches the class definition it makes in the same way. -/
theorem define_entity_stores_definition (b : Builder) (st : State) (decl defn : Addr)
    (ds : List Addr) (node : Decl_node)
    (hd : b.decls[b.parameterized_declaration decl]? = some node)
    (hk : node.is_function = true ∨ node.is_class = true) :
    (∃ b2, define_entity b decl defn = .ok (defn, b2) ∧
      b2.decls[b.parameterized_declaration decl]? = some (node.with_definition defn) ∧
      (node.with_definition defn).definition = some defn ∧
      b2.parameterized_declaration decl = b.parameterized_declaration decl ∧
      (∀ a : Addr, a ≠ b.parameterized_declaration decl → b2.decls[a]? = b.decls[a]?) ∧
      (∀ (P : List Addr) (d : Addr) (c : Option Addr),
        b.decls[decl]? = some (.Template_decl P d c) →
        b.parameterized_declaration decl = d ∧ b2.decls[decl]? = some (.Template_decl P d c)) ∧
      b2.decls.length = b.decls.length ∧ b2.types = b.types ∧ b2.defs = b.defs) ∧
    (∃ p2, Parser.on_class_definition { build := b, state := st } decl ds =
        .ok (b.defs.length, p2) ∧
      p2.build.defs = b.defs ++ [.Class_def ds] ∧
      p2.build.decls[b.parameterized_declaration decl]? = some (node.with_definition b.defs.length) ∧
      p2.state = st) :=
  define_entity_stores_at b st decl defn ds node _ rfl hd hk

/-- Witness for claim C11: a function declaration wrapped in a template; the
definition 7 is attached through the wrapper. -/
theorem define_entity_stores_definition_witness :
    Builder.parameterized_declaration
      { types := [], decls := [.Function_decl 1 2 [] 0, .Template_decl [5] 0 none] } 1 = 0 ∧
    define_entity
      { types := [], decls := [.Function_decl 1 2 [] 0, .Template_decl [5] 0 none] } 1 7 =
      .ok (7, { types := [],
                decls := [.Function_decl 1 2 [] 7, .Template_decl [5] 0 none] }) ∧
    (∃ b2, define_entity
      { types := [], decls := [.Function_decl 1 2 [] 0, .Template_decl [5] 0 none] } 1 7 =
        .ok (7, b2) ∧
      b2.decls[0]? = some (.Function_decl 1 2 [] 7)) := by
  refine ⟨by decide, by decide, ?_⟩
  obtain ⟨b2, h1, h2, _⟩ := (define_entity_stores_definition
    { types := [], decls := [.Function_decl 1 2 [] 0, .Template_decl [5] 0 none] }
    { template_parms := none, template_cons := none } 1 7 []
    (.Function_decl 1 2 [] 0) (by decide) (Or.inl rfl)).1
  exact ⟨b2, h1, h2⟩

/-- Claim C12, counterexample.  A `Concept_decl` passed to `define_entity` is
unhandled, although it is one of the three supported kinds.  A `Concept_decl`
inside a `Template_decl` wrapper cannot get a definition at all:
`define_entity` unwraps it and finds no slot it handles, `define_concept`
does not unwrap and fails its cast. -/
theorem define_entity_rejects_concept :
    Builder.parameterized_declaration
      { types := [], decls := [.Concept_decl 3 [] none] } 0 = 0 ∧
    (Decl_node.Concept_decl 3 [] none).is_concept = true ∧
    define_entity { types := [], decls := [.Concept_decl 3 [] none] } 0 5 =
      .error .unhandled ∧
    Builder.parameterized_declaration
      { types := [], decls := [.Concept_decl 3 [] none, .Template_decl [4] 0 none] } 1 = 0 ∧
    define_entity
      { types := [], decls := [.Concept_decl 3 [] none, .Template_decl [4] 0 none] } 1 5 =
      .error .unhandled ∧
    define_concept
      { types := [], decls := [.Concept_decl 3 [] none, .Template_decl [4] 0 none] } 1 5 =
      .error .bad_cast ∧
    ¬ (∀ (b : Builder) (decl defn : Addr) (node : Decl_node),
        b.decls[b.parameterized_declaration decl]? = some node →
        ((∃ f, define_entity b decl defn = .error f) ↔
          (node.is_function = false ∧ node.is_class = false ∧ node.is_concept = false))) ∧
    ¬ (∀ (b : Builder) (decl defn : Addr) (node : Decl_node),
        b.decls[b.parameterized_declaration decl]? = some node →
        (((∃ f, define_entity b decl defn = .error f) ∧
            (∃ f, define_concept b decl defn = .error f)) ↔
          (node.is_function = false ∧ node.is_class = false ∧ node.is_concept = false))) := by
  refine ⟨by decide, by decide, by decide, by decide, by decide, by decide, ?_, ?_⟩
  · intro h
    have h2 := (h { types := [], decls := [.Concept_decl 3 [] none] } 0 5
      (.Concept_decl 3 [] none) (by decide)).mp ⟨.unhandled, by decide⟩
    exact absurd h2.2.2 (by decide)
  · intro h
    have h2 := (h { types := [], decls := [.Concept_decl 3 [] none, .Template_decl [4] 0 none] }
      1 5 (.Concept_decl 3 [] none) (by decide)).mp
      ⟨⟨.unhandled, by decide⟩, ⟨.bad_cast, by decide⟩⟩
    exact absurd h2.2.2 (by decide)

/-- Claim C12, amended.  `define_entity` succeeds iff the declaration, after
unwrapping a `Template_decl` wrapper, is a `Function_decl` or a `Class_decl`,
and is unhandled for every other kind, `Concept_decl` included.  A concept
gets its definition from `define_concept`, which succeeds iff the declaration
itself, not unwrapped, is a `Concept_decl` and fails its cast otherwise. -/
theorem define_entity_supported_kinds (b : Builder) (decl defn : Addr)
    (node node0 : Decl_node)
    (hd : b.decls[b.parameterized_declaration decl]? = some node)
    (h0 : b.decls[decl]? = some node0) :
    ((∃ r, define_entity b decl defn = .ok r) ↔
      (node.is_function = true ∨ node.is_class = true)) ∧
    (define_entity b decl defn = .error .unhandled ↔
      (node.is_function = false ∧ node.is_class = false)) ∧
    ((∃ b2, define_concept b decl defn = .ok b2) ↔ node0.is_concept = true) ∧
    (define_concept b decl defn = .error .bad_cast ↔ node0.is_concept = false) := by
  refine ⟨?_, ?_, ?_, ?_⟩
  · constructor
    · rintro ⟨r, hr⟩
      cases hf : node.is_function with
      | true => exact Or.inl rfl
      | false =>
        cases hc : node.is_class with
        | true => exact Or.inr rfl
        | false =>
          rw [define_entity_unhandled b decl defn node hd hf hc] at hr
          cases hr
    · intro hk
      exact ⟨_, define_entity_ok b decl defn node hd hk⟩
  · constructor
    · intro he
      cases hf : node.is_function with
      | true =>
        rw [define_entity_ok b decl defn node hd (Or.inl hf)] at he
        cases he
      | false =>
        cases hc : node.is_class with
        | true =>
          rw [define_entity_ok b decl defn node hd (Or.inr hc)] at he
          cases he
        | false => exact ⟨rfl, rfl⟩
    · rintro ⟨hf, hc⟩
      exact define_entity_unhandled b decl defn node hd hf hc
  · unfold define_concept
    rw [h0]
    cases node0 <;> simp [Decl_node.is_concept]
  · unfold define_concept
    rw [h0]
    cases node0 <;> simp [Decl_node.is_concept]

/-- Witness for the amended claim C12: a function wrapped in a template is
defined through the wrapper, and the wrapper is no concept. -/
theorem define_entity_supported_kinds_witness :
    ((∃ r, define_entity
        { types := [], decls := [.Function_decl 1 2 [] 0, .Template_decl [5] 0 none] } 1 7 =
          .ok r) ↔
      ((Decl_node.Function_decl 1 2 [] 0).is_function = true ∨
        (Decl_node.Function_decl 1 2 [] 0).is_class = true)) ∧
    define_concept
      { types := [], decls := [.Function_decl 1 2 [] 0, .Template_decl [5] 0 none] } 1 7 =
      .error .bad_cast :=
  ⟨(define_entity_supported_kinds
      { types := [], decls := [.Function_decl 1 2 [] 0, .Template_decl [5] 0 none] } 1 7
      (.Function_decl 1 2 [] 0) (.Template_decl [5] 0 none) (by decide) (by decide)).1,
   by decide⟩

/-- The three parser actions for function definitions are stubs that do not
return. -/
theorem on_function_definition_unreachable (p : Parser) (d s : Addr) :
    p.on_function_definition d s = .error .unreachable ∧
    p.on_deleted_definition d = .error .unreachable ∧
    p.on_defaulted_definition d = .error .unreachable :=
  ⟨rfl, rfl, rfl⟩

/-- Claim C13, counterexample.  A `Concept_decl` enclosed in a
`Template_decl` wrapper: `on_concept_definition`, called on the wrapper, does
not unwrap it, `cast<Concept_decl>` fails, and no definition is attached;
the same for the overload that takes a requirement list. -/
theorem on_concept_definition_does_not_unwrap :
    Builder.parameterized_declaration
      { types := [], decls := [.Concept_decl 3 [] none, .Template_decl [4] 0 none] } 1 = 0 ∧
    Parser.on_concept_definition
      { build := { types := [],
                   decls := [.Concept_decl 3 [] none, .Template_decl [4] 0 none] },
        state := { template_parms := none, template_cons := none } } 1 9 =
      .error .bad_cast ∧
    Parser.on_concept_definition_reqs
      { build := { types := [],
                   decls := [.Concept_decl 3 [] none, .Template_decl [4] 0 none] },
        state := { template_parms := none, template_cons := none } } 1 [8, 9] =
      .error .bad_cast ∧
    ¬ (∀ (p : Parser) (decl e : Addr) (node : Decl_node),
        p.build.decls[p.build.parameterized_declaration decl]? = some node →
        node.is_concept = true → ∃ r, p.on_concept_definition decl e = .ok r) := by
  refine ⟨by decide, by decide, by decide, ?_⟩
  intro h
  obtain ⟨r, hr⟩ := h
    { build := { types := [],
                 decls := [.Concept_decl 3 [] none, .Template_decl [4] 0 none] },
      state := { template_parms := none, template_cons := none } } 1 9
    (.Concept_decl 3 [] none) (by decide) (by decide)
  have hE : Parser.on_concept_definition
      { build := { types := [],
                   decls := [.Concept_decl 3 [] none, .Template_decl [4] 0 none] },
        state := { template_parms := none, template_cons := none } } 1 9 =
      .error .bad_cast := by decide
  rw [hE] at hr
  cases hr

/-- The successful branch of `define_concept`. -/
theorem define_concept_ok (b : Builder) (decl defn n : Addr) (ps : List Addr)
    (old : Option Addr) (hd : b.decls[decl]? = some (.Concept_decl n ps old)) :
    define_concept b decl defn =
      .ok { b with decls := b.decls.set decl (.Concept_decl n ps (some defn)) } := by
  unfold define_concept
  rw [hd]

/-- The failing branch of `define_concept`. -/
theorem define_concept_bad_cast (b : Builder) (decl defn : Addr) (node : Decl_node)
    (hd : b.decls[decl]? = some node) (hc : node.is_concept = false) :
    define_concept b decl defn = .error .bad_cast := by
  unfold define_concept
  rw [hd]
  cases node <;> simp [Decl_node.is_concept] at hc <;> rfl

/-- Claim C13, amended.  `on_concept_definition`, called on a `Concept_decl`
itself, makes a new definition, an `Expression_def` of the expression or a
`Concept_def` of the requirements, stores it as the definition of the concept
and returns it, leaving every other node alone.  Called on a declaration that
is not itself a `Concept_decl`, a `Template_decl` wrapper included, it fails
the cast. -/
theorem on_concept_definition_attaches (p : Parser) (decl decl2 e n : Addr)
    (ds ps : List Addr) (old : Option Addr) (node : Decl_node)
    (hd : p.build.decls[decl]? = some (.Concept_decl n ps old))
    (hd2 : p.build.decls[decl2]? = some node) (hc : node.is_concept = false) :
    (∃ p2, p.on_concept_definition decl e = .ok (p.build.defs.length, p2) ∧
      p2.build.defs = p.build.defs ++ [.Expression_def e] ∧
      p2.build.decls[decl]? = some (.Concept_decl n ps (some p.build.defs.length)) ∧
      (∀ a : Addr, a ≠ decl → p2.build.decls[a]? = p.build.decls[a]?) ∧
      p2.build.types = p.build.types ∧ p2.state = p.state) ∧
    (∃ p2, p.on_concept_definition_reqs decl ds = .ok (p.build.defs.length, p2) ∧
      p2.build.defs = p.build.defs ++ [.Concept_def ds] ∧
      p2.build.decls[decl]? = some (.Concept_decl n ps (some p.build.defs.length)) ∧
      (∀ a : Addr, a ≠ decl → p2.build.decls[a]? = p.build.decls[a]?) ∧
      p2.build.types = p.build.types ∧ p2.state = p.state) ∧
    p.on_concept_definition decl2 e = .error .bad_cast ∧
    p.on_concept_definition_reqs decl2 ds = .error .bad_cast := by
  have hlt : decl < p.build.decls.length := (List.getElem?_eq_some.mp hd).1
  have hset : ∀ x : Decl_node, (p.build.decls.set decl x)[decl]? = some x := by
    intro x
    rw [List.getElem?_set]
    simp [hlt]
  have hother : ∀ (x : Decl_node) (a : Addr), a ≠ decl →
      (p.build.decls.set decl x)[a]? = p.build.decls[a]? :=
    fun x a ha => List.getElem?_set_ne (Ne.symm ha)
  have h1 := define_concept_ok (p.build.make_expression_definition e).2 decl
    (p.build.make_expression_definition e).1 n ps old hd
  have h2 := define_concept_ok (p.build.make_concept_definition ds).2 decl
    (p.build.make_concept_definition ds).1 n ps old hd
  have h3 := define_concept_bad_cast (p.build.make_expression_definition e).2 decl2
    (p.build.make_expression_definition e).1 node hd2 hc
  have h4 := define_concept_bad_cast (p.build.make_concept_definition ds).2 decl2
    (p.build.make_concept_definition ds).1 node hd2 hc
  refine ⟨?_, ?_, ?_, ?_⟩
  · unfold Parser.on_concept_definition
    simp only [h1]
    exact ⟨_, rfl, rfl, hset _, hother _, rfl, rfl⟩
  · unfold Parser.on_concept_definition_reqs
    simp only [h2]
    exact ⟨_, rfl, rfl, hset _, hother _, rfl, rfl⟩
  · unfold Parser.on_concept_definition
    simp only [h3]
  · unfold Parser.on_concept_definition_reqs
    simp only [h4]

/-- Witness for the amended claim C13: a concept and a template that wraps
it; the expression 9 becomes definition 0 of the concept. -/
theorem on_concept_definition_attaches_witness :
    Parser.on_concept_definition
      { build := { types := [],
                   decls := [.Concept_decl 3 [] none, .Template_decl [4] 0 none] },
        state := { template_parms := none, template_cons := none } } 0 9 =
      .ok (0, { build := { types := [],
                           decls := [.Concept_decl 3 [] (some 0), .Template_decl [4] 0 none],
                           defs := [.Expression_def 9] },
                state := { template_parms := none, template_cons := none } }) ∧
    Parser.on_concept_definition
      { build := { types := [],
                   decls := [.Concept_decl 3 [] none, .Template_decl [4] 0 none] },
        state := { template_parms := none, template_cons := none } } 1 9 =
      .error .bad_cast :=
  ⟨by decide,
   (on_concept_definition_attaches
      { build := { types := [],
                   decls := [.Concept_decl 3 [] none, .Template_decl [4] 0 none] },
        state := { template_parms := none, template_cons := none } } 0 1 9 3 [] []
      none (.Template_decl [4] 0 none) (by decide) (by decide) rfl).2.2.1⟩

/-! ### Qualifiers do not nest -/

/-- The invariant carries over to a later store in which every
`Qualified_type` either was one before, over the same type, or is over a type
that was there before and is not qualified. -/
theorem Builder.no_nested_qualifiers_of_keeps (b b2 : Builder)
    (hinv : b.No_nested_qualifiers) (hk : Keeps b.types b2.types)
    (horigin : ∀ (q u : Addr) (A : Qualifier_set),
      b2.types[q]? = some (.Qualified_type u A) →
      (∃ A0, b.types[q]? = some (.Qualified_type u A0)) ∨
      (∃ m, b.types[u]? = some m ∧ m.is_qualified = false)) :
    b2.No_nested_qualifiers := by
  intro q u A hq
  have hu : ∃ m, b.types[u]? = some m ∧ m.is_qualified = false := by
    rcases horigin q u A hq with ⟨A0, h0⟩ | h
    · exact hinv q u A0 h0
    · exact h
  obtain ⟨m, hm, hmq⟩ := hu
  obtain ⟨m2, hm2, hsame, _⟩ := hk u m hm
  exact ⟨m2, hm2, by rw [hsame hmq]; exact hmq⟩

theorem Builder.getElem?_append_one (l : List Type_node) (n x : Type_node) (i : Nat)
    (h : (l ++ [n])[i]? = some x) : l[i]? = some x ∨ (i = l.length ∧ x = n) := by
  by_cases hi : i < l.length
  · rw [List.getElem?_append_left hi] at h
    exact Or.inl h
  · have hle : l.length ≤ i := Nat.le_of_not_lt hi
    rcases Nat.eq_or_lt_of_le hle with heq | hlt
    · subst heq
      simp at h
      exact Or.inr ⟨rfl, h.symm⟩
    · rw [List.getElem?_eq_none (by simp; omega)] at h
      cases h

/-- A builder that makes a node which is not a `Qualified_type` keeps the
invariant. -/
theorem Builder.make_type_no_nested (b : Builder) (n : Type_node)
    (hinv : b.No_nested_qualifiers) (hn : n.is_qualified = false) :
    (b.make_type n).2.No_nested_qualifiers := by
  apply Builder.no_nested_qualifiers_of_keeps b _ hinv (Builder.make_type_keeps b n)
  intro q u A hq
  rcases (Builder.make_type_spec b n).2.2.2 with h | ⟨h, _, _⟩
  · rw [h] at hq
    exact Or.inl ⟨A, hq⟩
  · rw [h] at hq
    rcases Builder.getElem?_append_one _ _ _ _ hq with h1 | ⟨_, h2⟩
    · exact Or.inl ⟨A, h1⟩
    · rw [← h2] at hn
      simp [Type_node.is_qualified] at hn

/-- A builder that canonicalizes a node which is not a `Qualified_type` keeps
the invariant. -/
theorem Builder.canonicalize_no_nested (b : Builder) (n : Type_node)
    (hinv : b.No_nested_qualifiers) (hn : n.is_qualified = false) :
    (b.canonicalize n).2.No_nested_qualifiers := by
  apply Builder.no_nested_qualifiers_of_keeps b _ hinv (Builder.canonicalize_keeps b n)
  intro q u A hq
  rcases Builder.canonicalize_types b n with h | h
  · rw [h] at hq
    exact Or.inl ⟨A, hq⟩
  · rw [h] at hq
    rcases Builder.getElem?_append_one _ _ _ _ hq with h1 | ⟨_, h2⟩
    · exact Or.inl ⟨A, h1⟩
    · rw [← h2] at hn
      simp [Type_node.is_qualified] at hn

/-- What `get_qualified_type` returns and leaves behind, given the invariant. -/
theorem Builder.get_qualified_type_no_nested (b : Builder) (t : Addr)
    (qual : Qualifier_set) (hinv : b.No_nested_qualifiers) (ht : t < b.types.length) :
    (∃ (u : Addr) (A : Qualifier_set) (m : Type_node),
      (b.get_qualified_type t qual).2.types[(b.get_qualified_type t qual).1]? =
        some (.Qualified_type u A) ∧
      (b.get_qualified_type t qual).2.types[u]? = some m ∧ m.is_qualified = false) ∧
    (b.get_qualified_type t qual).2.No_nested_qualifiers := by
  have hex : b.types[t]? = some (b.types[t]) := List.getElem?_eq_getElem ht
  have hinv2 : (b.get_qualified_type t qual).2.No_nested_qualifiers := by
    apply Builder.no_nested_qualifiers_of_keeps b _ hinv
      (Builder.get_qualified_type_keeps b t qual)
    intro q u A hq
    cases hqt : (b.types[t]).is_qualified with
    | true =>
      cases hnode : b.types[t] with
      | Qualified_type u0 A0 =>
        rw [hnode] at hex
        rw [Builder.get_qualified_type_merge b t u0 A0 qual hex] at hq
        by_cases hEq : t = q
        · subst hEq
          rw [Builder.getElem?_set_self _ _ _ _ hex] at hq
          cases hq
          exact Or.inl ⟨A0, hex⟩
        · have : (b.types.set t (.Qualified_type u0 (A0 ||| qual)))[q]? = b.types[q]? :=
            List.getElem?_set_ne hEq
          exact Or.inl ⟨A, this.symm.trans hq⟩
      | _ => rw [hnode] at hqt; simp [Type_node.is_qualified] at hqt
    | false =>
      rw [Builder.get_qualified_type_wrap b t _ qual hex hqt] at hq
      rcases (Builder.make_type_spec b (.Qualified_type t qual)).2.2.2 with h | ⟨h, _, _⟩
      · rw [h] at hq
        exact Or.inl ⟨A, hq⟩
      · rw [h] at hq
        rcases Builder.getElem?_append_one _ _ _ _ hq with h1 | ⟨_, h2⟩
        · exact Or.inl ⟨A, h1⟩
        · cases h2
          exact Or.inr ⟨_, hex, hqt⟩
  refine ⟨?_, hinv2⟩
  have hres : ∃ (u : Addr) (A : Qualifier_set),
      (b.get_qualified_type t qual).2.types[(b.get_qualified_type t qual).1]? =
        some (.Qualified_type u A) := by
    cases hqt : (b.types[t]).is_qualified with
    | true =>
      cases hnode : b.types[t] with
      | Qualified_type u0 A0 =>
        rw [hnode] at hex
        rw [Builder.get_qualified_type_merge b t u0 A0 qual hex]
        exact ⟨u0, A0 ||| qual, Builder.getElem?_set_self _ _ _ _ hex⟩
      | _ => rw [hnode] at hqt; simp [Type_node.is_qualified] at hqt
    | false =>
      rw [Builder.get_qualified_type_wrap b t _ qual hex hqt]
      exact ⟨t, qual, (Builder.make_type_spec b _).2.1⟩
  obtain ⟨u, A, hr⟩ := hres
  obtain ⟨m, hm, hmq⟩ := hinv2 _ u A hr
  exact ⟨u, A, m, hr, hm, hmq⟩

theorem Builder.Built.no_nested_qualifiers {b : Builder} (h : Builder.Built b) :
    b.No_nested_qualifiers := by
  induction h with
  | init =>
    intro q u A hq
    simp [Builder.init] at hq
  | make_type b n _ hn ih => exact Builder.make_type_no_nested b n ih hn
  | canonicalize b n _ hn ih => exact Builder.canonicalize_no_nested b n ih hn
  | get_qualified_type b t qual _ ht ih =>
    exact (Builder.get_qualified_type_no_nested b t qual ih ht).2
  | other b c _ hc ih =>
    intro q u A hq
    rw [hc] at hq
    obtain ⟨m, hm, hmq⟩ := ih q u A hq
    exact ⟨m, by rw [hc]; exact hm, hmq⟩

/-- Claim C14.  In a builder in which no `Qualified_type` has a
`Qualified_type` as its underlying type, `get_qualified_type(t, q)`,
`get_const_type(t)` and `get_volatile_type(t)` return, for every existing
type `t` and every qualifier set, a `Qualified_type` whose underlying type is
not a `Qualified_type`, and the property still holds afterwards; the builders
that make other types keep it as well, so it holds of every store the
builders reach from the empty one. -/
theorem qualifiers_never_nest (b : Builder) (t : Addr) (qual : Qualifier_set)
    (hinv : b.No_nested_qualifiers) (ht : t < b.types.length) :
    ((∃ (u : Addr) (A : Qualifier_set) (m : Type_node),
        (b.get_qualified_type t qual).2.types[(b.get_qualified_type t qual).1]? =
          some (.Qualified_type u A) ∧
        (b.get_qualified_type t qual).2.types[u]? = some m ∧ m.is_qualified = false) ∧
      (b.get_qualified_type t qual).2.No_nested_qualifiers) ∧
    ((∃ (u : Addr) (A : Qualifier_set) (m : Type_node),
        (b.get_const_type t).2.types[(b.get_const_type t).1]? = some (.Qualified_type u A) ∧
        (b.get_const_type t).2.types[u]? = some m ∧ m.is_qualified = false) ∧
      (b.get_const_type t).2.No_nested_qualifiers) ∧
    ((∃ (u : Addr) (A : Qualifier_set) (m : Type_node),
        (b.get_volatile_type t).2.types[(b.get_volatile_type t).1]? =
          some (.Qualified_type u A) ∧
        (b.get_volatile_type t).2.types[u]? = some m ∧ m.is_qualified = false) ∧
      (b.get_volatile_type t).2.No_nested_qualifiers) ∧
    (∀ n : Type_node, n.is_qualified = false → (b.make_type n).2.No_nested_qualifiers) ∧
    (∀ c : Builder, Builder.Built c → c.No_nested_qualifiers) :=
  ⟨Builder.get_qualified_type_no_nested b t qual hinv ht,
   Builder.get_qualified_type_no_nested b t const_qual hinv ht,
   Builder.get_qualified_type_no_nested b t volatile_qual hinv ht,
   fun n hn => Builder.make_type_no_nested b n hinv hn,
   fun _ hc => hc.no_nested_qualifiers⟩

/-- Witness for claim C14: the int type and its const-qualified type;
qualifying the qualified type again, volatile, returns node 1, whose
underlying type is the int type. -/
theorem qualifiers_never_nest_witness :
    ((Builder.init.get_int_type).2.get_const_type 0).2.types =
      [.Integer_type true 32, .Qualified_type 0 const_qual] ∧
    ((Builder.init.get_int_type).2.get_const_type 0).2.No_nested_qualifiers ∧
    (((Builder.init.get_int_type).2.get_const_type 0).2.get_qualified_type 1
      volatile_qual).2.No_nested_qualifiers ∧
    (((Builder.init.get_int_type).2.get_const_type 0).2.get_qualified_type 1 volatile_qual) =
      (1, { types := [.Integer_type true 32, .Qualified_type 0 3], decls := [] }) := by
  have hb : Builder.Built ((Builder.init.get_int_type).2.get_const_type 0).2 :=
    Builder.Built.get_qualified_type _ 0 const_qual
      (Builder.Built.make_type _ (.Integer_type true 32) Builder.Built.init rfl) (by decide)
  exact ⟨by decide, hb.no_nested_qualifiers,
    (qualifiers_never_nest ((Builder.init.get_int_type).2.get_const_type 0).2 1 volatile_qual
      hb.no_nested_qualifiers (by decide)).1.2,
    by decide⟩

/-! ### Boolean reading, references and traversal of values -/

/-- Claim C15.  `get_boolean` returns a result exactly on the values of the
Integer variant, and then it is true iff the stored integer is not zero; on a
value of any other kind it ends in the assertion failure of `get_integer`. -/
theorem get_boolean_reads_integer (v : Value) (z : Integer_value) :
    ((∃ b, v.get_boolean = .ok b) ↔ ∃ n, v = Value.of_integer n) ∧
    (Value.of_integer z).get_boolean = .ok (decide (z ≠ 0)) ∧
    (z ≠ 0 → (Value.of_integer z).get_boolean = .ok true) ∧
    (Value.of_integer 0).get_boolean = .ok false ∧
    (v.kind ≠ .integer_value → v.get_boolean = .error .assertion) := by
  refine ⟨?_, ?_, ?_, rfl, ?_⟩
  · obtain ⟨k, r⟩ := v
    constructor
    · rintro ⟨b, hb⟩
      cases k <;> cases r <;>
        simp [Value.get_boolean, Value.get_integer, Value.is_integer] at hb
      exact ⟨_, rfl⟩
    · rintro ⟨n, hn⟩
      rw [hn]
      exact ⟨_, rfl⟩
  · by_cases hz : z = 0
    · subst hz
      rfl
    · simp [Value.get_boolean, Value.get_integer, Value.is_integer, Value.of_integer, hz]
  · intro hz
    simp [Value.get_boolean, Value.get_integer, Value.is_integer, Value.of_integer, hz]
  · intro hk
    obtain ⟨k, r⟩ := v
    cases k <;> simp [Value.kind] at hk <;>
      simp [Value.get_boolean, Value.get_integer, Value.is_integer]

/-- Witness for claim C15: the integers 7 and 0 and a float value. -/
theorem get_boolean_reads_integer_witness :
    (Value.of_integer 7).get_boolean = .ok true ∧
    (Value.of_integer 0).get_boolean = .ok false ∧
    (Value.of_float 0).get_boolean = .error .assertion :=
  ⟨(get_boolean_reads_integer (Value.of_float 0) 7).2.2.1 (by decide),
   (get_boolean_reads_integer (Value.of_float 0) 7).2.2.2.1,
   (get_boolean_reads_integer (Value.of_float 0) 7).2.2.2.2
     (by simp [Value.kind, Value.of_float])⟩

/-- Claim C16.  `Value(Value* v)` fails its assertion whenever the value `v`
points to is a reference, so a reference value that is constructed points,
at that time, to a value that is not a reference. -/
theorem reference_chains_rejected (mem : Value_memory) (p : Reference_value)
    (pointee : Value) (hp : mem[p]? = some pointee) :
    (pointee.kind = .reference_value → Value.of_reference mem p = .error .assertion) ∧
    (pointee.kind ≠ .reference_value →
      Value.of_reference mem p = .ok { k := .reference_value, r := .ref_ p }) ∧
    (∀ v, Value.of_reference mem p = .ok v →
      pointee.kind ≠ .reference_value ∧ v.kind = .reference_value ∧
      v.get_reference = .ok p) := by
  have hcases : pointee.kind = .reference_value ∨ pointee.kind ≠ .reference_value :=
    Decidable.em _
  have h1 : pointee.kind = .reference_value → Value.of_reference mem p = .error .assertion := by
    intro hk
    unfold Value.of_reference
    rw [hp]
    simp [Value.is_reference, Value.kind] at hk ⊢
    exact hk
  have h2 : pointee.kind ≠ .reference_value →
      Value.of_reference mem p = .ok { k := .reference_value, r := .ref_ p } := by
    intro hk
    unfold Value.of_reference
    rw [hp]
    simp [Value.is_reference, Value.kind] at hk ⊢
    exact hk
  refine ⟨h1, h2, ?_⟩
  intro v hv
  rcases hcases with hk | hk
  · rw [h1 hk] at hv
    cases hv
  · rw [h2 hk] at hv
    cases hv
    exact ⟨hk, rfl, rfl⟩

/-- Witness for claim C16: a memory with the integer 5 and a reference to
it; a reference to the integer is made, a reference to the reference is
refused. -/
theorem reference_chains_rejected_witness :
    (Value.of_reference
      [Value.of_integer 5, { k := .reference_value, r := .ref_ 0 }] 1 = .error .assertion) ∧
    (Value.of_reference
      [Value.of_integer 5, { k := .reference_value, r := .ref_ 0 }] 0 =
        .ok { k := .reference_value, r := .ref_ 0 }) :=
  ⟨(reference_chains_rejected
      [Value.of_integer 5, { k := .reference_value, r := .ref_ 0 }] 1
      { k := .reference_value, r := .ref_ 0 } rfl).1 rfl,
   (reference_chains_rejected
      [Value.of_integer 5, { k := .reference_value, r := .ref_ 0 }] 0
      (Value.of_integer 5) rfl).2.1 (by simp [Value.kind, Value.of_integer])⟩

/-- Claim C18, counterexample.  For a `Decltype_type`, one of the four
placeholder variants, `is_value_type` ends in `lingo_unimplemented`, which is
not the unreachable kind of failure. -/
theorem is_value_type_decltype_unimplemented :
    (Type_.Decltype_type 0).is_placeholder = true ∧
    is_value_type (.Decltype_type 0) = .error .unimplemented ∧
    is_value_type (.Decltype_type 0) ≠ .error .unreachable ∧
    is_value_type .Auto_type = .error .unreachable ∧
    ¬ (∀ t : Type_, t.is_placeholder = true → is_value_type t = .error .unreachable) := by
  refine ⟨rfl, rfl, by decide, rfl, ?_⟩
  intro h
  have h2 := h (.Decltype_type 0) rfl
  revert h2
  decide

/-- Claim C18, amended.  `is_value_type` reports the unreachable kind of
failure for Auto, Declauto and Typename, and the unimplemented kind for
Decltype, also below any number of qualifier layers; so a type whose stripped
form is one of the four fails with one of the two kinds, with unimplemented
exactly for Decltype. -/
theorem is_value_type_placeholder_failures (t : Type_) (d e : Addr) :
    is_value_type .Auto_type = .error .unreachable ∧
    is_value_type .Declauto_type = .error .unreachable ∧
    is_value_type (.Typename_type d) = .error .unreachable ∧
    is_value_type (.Decltype_type e) = .error .unimplemented ∧
    ((strip_qualifiers t).is_placeholder = true →
      (is_value_type t = .error .unreachable ∨ is_value_type t = .error .unimplemented) ∧
      (is_value_type t = .error .unimplemented ↔ ∃ x, strip_qualifiers t = .Decltype_type x)) := by
  refine ⟨rfl, rfl, rfl, rfl, ?_⟩
  intro h
  rw [is_value_type_strip]
  cases hs : strip_qualifiers t <;> rw [hs] at h <;>
    simp [Type_.is_placeholder] at h <;> simp [is_value_type]

/-- Witness for the amended claim C18: a qualified decltype-type and a
qualified typename-type. -/
theorem is_value_type_placeholder_failures_witness :
    is_value_type (.Qualified_type (.Decltype_type 4) const_qual) = .error .unimplemented ∧
    is_value_type (.Qualified_type (.Typename_type 4) const_qual) = .error .unreachable ∧
    (is_value_type (.Qualified_type (.Typename_type 4) const_qual) = .error .unimplemented ↔
      ∃ x, strip_qualifiers (.Qualified_type (.Typename_type 4) const_qual) =
        .Decltype_type x) :=
  ⟨rfl, rfl,
   ((is_value_type_placeholder_failures (.Qualified_type (.Typename_type 4) const_qual) 0 0
      ).2.2.2.2 rfl).2⟩

/-- Claim C19.  The builders of the unsupported constructs end in
`lingo_unimplemented` for every argument and every builder state: no node is
returned and no builder state results, so nothing is registered.  The
condition is neither the unreachable failure nor a `Lookup_error`, such as
the one `on_class_name` throws. -/
theorem unsupported_builders_unimplemented (b : Builder) (p : Parser) (t e tok : Addr)
    (msg : String) :
    b.get_decltype_type e = .error .unimplemented ∧
    b.get_array_type t e = .error .unimplemented ∧
    b.get_dynarray_type t e = .error .unimplemented ∧
    b.get_destructor_id t = .error .unimplemented ∧
    p.on_destructor_id tok t = .error .unimplemented ∧
    (∀ r, b.get_decltype_type e ≠ .ok r) ∧
    (∀ r, b.get_array_type t e ≠ .ok r) ∧
    (∀ r, b.get_dynarray_type t e ≠ .ok r) ∧
    (∀ r, b.get_destructor_id t ≠ .ok r) ∧
    Failure.unimplemented ≠ Failure.unreachable ∧
    Failure.unimplemented ≠ Failure.lookup_error msg ∧
    p.on_class_name tok = .error (.lookup_error "not a class") ∧
    is_value_type .Auto_type = .error .unreachable := by
  refine ⟨rfl, rfl, rfl, rfl, rfl, ?_, ?_, ?_, ?_, ?_, ?_, rfl, rfl⟩
  · intro r h; cases h
  · intro r h; cases h
  · intro r h; cases h
  · intro r h; cases h
  · intro h; cases h
  · intro h; cases h

/-! ### Function types from parameter lists -/

theorem Builder.parm_types_ok (b : Builder) :
    ∀ (ps acc : List Addr),
      (∀ d ∈ ps, ∃ n t, b.decls[d]? = some (.Object_parm n t)) →
      ∃ ts, Builder.parm_types b ps acc = .ok (acc ++ ts) ∧ ts.length = ps.length ∧
        ∀ (i : Nat) (d : Addr), ps[i]? = some d →
          ∃ n t, b.decls[d]? = some (.Object_parm n t) ∧ ts[i]? = some t := by
  intro ps
  induction ps with
  | nil =>
    intro acc _
    exact ⟨[], by simp [Builder.parm_types], rfl, by intro i d h; simp at h⟩
  | cons d ds ih =>
    intro acc h
    obtain ⟨n, t, hd⟩ := h d (List.mem_cons_self d ds)
    obtain ⟨ts, h1, h2, h3⟩ := ih (acc ++ [t]) (fun x hx => h x (List.mem_cons_of_mem d hx))
    refine ⟨t :: ts, ?_, by simp [h2], ?_⟩
    · unfold Builder.parm_types
      simp only [hd]
      rw [h1]
      simp
    · intro i x hx
      cases i with
      | zero =>
        simp at hx
        subst hx
        exact ⟨n, t, hd, by simp⟩
      | succ j =>
        simp at hx
        obtain ⟨n2, t2, hx2, ht2⟩ := h3 j x hx
        exact ⟨n2, t2, hx2, by simpa using ht2⟩

theorem Builder.parm_types_bad_cast (b : Builder) :
    ∀ (ps acc : List Addr),
      (∀ d ∈ ps, ∃ node, b.decls[d]? = some node) →
      (∃ d ∈ ps, ∃ node, b.decls[d]? = some node ∧ node.is_object_parm = false) →
      Builder.parm_types b ps acc = .error .bad_cast := by
  intro ps
  induction ps with
  | nil =>
    intro acc _ h
    obtain ⟨d, hd, _⟩ := h
    simp at hd
  | cons d ds ih =>
    intro acc hall hbad
    obtain ⟨node, hnode⟩ := hall d (List.mem_cons_self d ds)
    unfold Builder.parm_types
    simp only [hnode]
    cases hk : node.is_object_parm with
    | false => cases node <;> simp [Decl_node.is_object_parm] at hk <;> rfl
    | true =>
      obtain ⟨x, hx, nx, hnx, hbx⟩ := hbad
      have hxds : x ∈ ds := by
        rcases List.mem_cons.mp hx with hEq | hmem
        · subst hEq
          rw [hnode] at hnx
          cases hnx
          rw [hk] at hbx
          cases hbx
        · exact hmem
      cases node <;> simp [Decl_node.is_object_parm] at hk
      exact ih _ (fun y hy => hall y (List.mem_cons_of_mem d hy)) ⟨x, hxds, nx, hnx, hbx⟩

theorem Builder.make_type_defs (b : Builder) (n : Type_node) :
    (b.make_type n).2.defs = b.defs := by
  unfold Builder.make_type
  split <;> rfl

/-- Claim C20.  For a parameter list `ps` of `Object_parm` declarations,
`get_function_type(ps, r)` is `get_function_type(ts, r)` for the list `ts` of
the declared types of the parameters, of the same length and in the same
order; `make_function_declaration` gives the function this type.  A list of
existing declarations one of which is not an `Object_parm` makes the call
fail in the cast. -/
theorem function_type_from_parameters (b : Builder) (ps : List Addr) (r n e : Addr) :
    ((∀ d ∈ ps, ∃ m t, b.decls[d]? = some (.Object_parm m t)) →
      ∃ ts, b.get_function_type_decls ps r = .ok (b.get_function_type ts r) ∧
        ts.length = ps.length ∧
        (∀ (i : Nat) (d : Addr), ps[i]? = some d →
          ∃ m t, b.decls[d]? = some (.Object_parm m t) ∧ ts[i]? = some t) ∧
        ∃ b2, b.make_function_declaration n ps r e = .ok (b.decls.length, b2) ∧
          b2.decls =
            b.decls ++ [.Function_decl n (b.get_function_type ts r).1 ps b.defs.length] ∧
          b2.defs = b.defs ++ [.Expression_def e]) ∧
    ((∀ d ∈ ps, ∃ node, b.decls[d]? = some node) →
      (∃ d ∈ ps, ∃ node, b.decls[d]? = some node ∧ node.is_object_parm = false) →
      b.get_function_type_decls ps r = .error .bad_cast ∧
      b.make_function_declaration n ps r e = .error .bad_cast) := by
  constructor
  · intro h
    obtain ⟨ts, h1, h2, h3⟩ := Builder.parm_types_ok b ps [] h
    have hft : b.get_function_type_decls ps r = .ok (b.get_function_type ts r) := by
      unfold Builder.get_function_type_decls
      rw [h1]
      rfl
    refine ⟨ts, hft, h2, h3, ?_⟩
    have hdecls : (b.get_function_type ts r).2.decls = b.decls :=
      (Builder.canonicalize_stores b (.Function_type ts r)).1
    have hdefs : (b.get_function_type ts r).2.defs = b.defs :=
      (Builder.canonicalize_stores b (.Function_type ts r)).2.1
    unfold Builder.make_function_declaration
    rw [hft]
    simp only [Builder.make_decl, Builder.make_expression_definition, Builder.make_def,
      hdecls, hdefs]
    exact ⟨_, rfl, rfl, rfl⟩
  · intro hall hbad
    have h1 := Builder.parm_types_bad_cast b ps [] hall hbad
    have hft : b.get_function_type_decls ps r = .error .bad_cast := by
      unfold Builder.get_function_type_decls
      rw [h1]
    refine ⟨hft, ?_⟩
    unfold Builder.make_function_declaration
    rw [hft]

/-- Witness for claim C20: two object parameters of types 0 and 1, then the
same list with a variable declaration in it. -/
theorem function_type_from_parameters_witness :
    Builder.get_function_type_decls
      { types := [.Integer_type true 32, .Boolean_type],
        decls := [.Object_parm 7 0, .Object_parm 8 1, .Variable_decl 9 0 0] } [0, 1] 1 =
      .ok (2, { types := [.Integer_type true 32, .Boolean_type, .Function_type [0, 1] 1],
                decls := [.Object_parm 7 0, .Object_parm 8 1, .Variable_decl 9 0 0] }) ∧
    Builder.get_function_type_decls
      { types := [.Integer_type true 32, .Boolean_type],
        decls := [.Object_parm 7 0, .Object_parm 8 1, .Variable_decl 9 0 0] } [0, 2, 1] 1 =
      .error .bad_cast :=
  ⟨by decide,
   ((function_type_from_parameters
      { types := [.Integer_type true 32, .Boolean_type],
        decls := [.Object_parm 7 0, .Object_parm 8 1, .Variable_decl 9 0 0] }
      [0, 2, 1] 1 0 0).2
      (by
        intro d hd
        simp at hd
        rcases hd with rfl | rfl | rfl <;> exact ⟨_, rfl⟩)
      ⟨2, by simp, .Variable_decl 9 0 0, rfl, rfl⟩).1⟩

/-! ### Resolved names -/

/-- The call `build.get_id(tok)` for an identifier token. -/
theorem Builder.get_id_token_ok (b : Builder) (tok : Token)
    (hid : tok.symbol.is_identifier = true) :
    b.get_id_token tok = .ok (b.make_name (.Simple_id tok.symbol)) := by
  unfold Builder.get_id_token Builder.get_id
  rw [hid]
  rfl

/-- The successful branch of `on_type_alias`. -/
theorem Parser.on_type_alias_type_parm (p : Parser) (lookup : Symbol → List Addr)
    (tok : Token) (hid : tok.symbol.is_identifier = true) (d n : Addr) (t : Option Addr)
    (hl : lookup tok.symbol = [d]) (hd : p.build.decls[d]? = some (.Type_parm n t)) :
    p.on_type_alias lookup tok =
      .ok (((p.build.make_name (.Simple_id tok.symbol)).2.get_typename_type d).1,
        { p with
          build := ((p.build.make_name (.Simple_id tok.symbol)).2.get_typename_type d).2 }) := by
  have hd2 : (p.build.make_name (.Simple_id tok.symbol)).2.decls[d]? =
      some (.Type_parm n t) := hd
  unfold Parser.on_type_alias
  rw [Builder.get_id_token_ok p.build tok hid]
  simp only [hl, hd2]

/-- The branch of `on_type_alias` for one declaration that is no type
parameter. -/
theorem Parser.on_type_alias_other (p : Parser) (lookup : Symbol → List Addr)
    (tok : Token) (hid : tok.symbol.is_identifier = true) (d : Addr) (node : Decl_node)
    (hl : lookup tok.symbol = [d]) (hd : p.build.decls[d]? = some node)
    (hk : node.is_type_parm = false) :
    p.on_type_alias lookup tok =
      .error (.lookup_error (lookup_message "'" tok.symbol "' does not name a type")) := by
  have hd2 : (p.build.make_name (.Simple_id tok.symbol)).2.decls[d]? = some node := hd
  unfold Parser.on_type_alias
  rw [Builder.get_id_token_ok p.build tok hid]
  simp only [hl, hd2]
  cases node <;> simp [Decl_node.is_type_parm] at hk <;> rfl

/-- Claim C21.  For an identifier token and a lookup that finds existing
declarations: `on_type_alias(tok)` returns a type iff the lookup yields
exactly one declaration and that is a `Type_parm`; the type returned is then
the `Typename_type` of that parameter.  Otherwise it throws a `Lookup_error`:
"no matching declaration" for an empty result, "ambiguous" for more than one
declaration, "does not name a type" for one declaration of another kind. -/
theorem on_type_alias_resolves (p : Parser) (lookup : Symbol → List Addr) (tok : Token)
    (hid : tok.symbol.is_identifier = true)
    (hex : ∀ d ∈ lookup tok.symbol, ∃ node, p.build.decls[d]? = some node) :
    ((∃ r, p.on_type_alias lookup tok = .ok r) ↔
      ∃ (d n : Addr) (t : Option Addr),
        lookup tok.symbol = [d] ∧ p.build.decls[d]? = some (.Type_parm n t)) ∧
    (∀ (d n : Addr) (t : Option Addr),
      lookup tok.symbol = [d] → p.build.decls[d]? = some (.Type_parm n t) →
      ∃ (a : Addr) (p2 : Parser), p.on_type_alias lookup tok = .ok (a, p2) ∧
        p2.build.types[a]? = some (.Typename_type d) ∧
        p2.build.decls = p.build.decls ∧ p2.state = p.state) ∧
    (lookup tok.symbol = [] →
      p.on_type_alias lookup tok =
        .error (.lookup_error (lookup_message "no matching declaration for '" tok.symbol "'"))) ∧
    (1 < (lookup tok.symbol).length →
      p.on_type_alias lookup tok =
        .error (.lookup_error (lookup_message "lookup of '" tok.symbol "' is ambiguous"))) ∧
    (∀ (d : Addr) (node : Decl_node),
      lookup tok.symbol = [d] → p.build.decls[d]? = some node → node.is_type_parm = false →
      p.on_type_alias lookup tok =
        .error (.lookup_error (lookup_message "'" tok.symbol "' does not name a type"))) ∧
    ((∃ msg, p.on_type_alias lookup tok = .error (.lookup_error msg)) ∨
      (∃ r, p.on_type_alias lookup tok = .ok r)) := by
  have hempty : lookup tok.symbol = [] →
      p.on_type_alias lookup tok =
        .error (.lookup_error
          (lookup_message "no matching declaration for '" tok.symbol "'")) := by
    intro hl
    unfold Parser.on_type_alias
    rw [Builder.get_id_token_ok p.build tok hid]
    simp only [hl]
  have hmany : 1 < (lookup tok.symbol).length →
      p.on_type_alias lookup tok =
        .error (.lookup_error (lookup_message "lookup of '" tok.symbol "' is ambiguous")) := by
    intro hl
    unfold Parser.on_type_alias
    rw [Builder.get_id_token_ok p.build tok hid]
    cases hr : lookup tok.symbol with
    | nil => rw [hr] at hl; simp at hl
    | cons a rest =>
      cases rest with
      | nil => rw [hr] at hl; simp at hl
      | cons b rest2 => rfl
  have hok := Parser.on_type_alias_type_parm p lookup tok hid
  have hother := Parser.on_type_alias_other p lookup tok hid
  have hiff : (∃ r, p.on_type_alias lookup tok = .ok r) ↔
      ∃ (d n : Addr) (t : Option Addr),
        lookup tok.symbol = [d] ∧ p.build.decls[d]? = some (.Type_parm n t) := by
    constructor
    · rintro ⟨r, hr⟩
      cases hl : lookup tok.symbol with
      | nil => rw [hempty hl] at hr; cases hr
      | cons d rest =>
        cases rest with
        | cons d2 rest2 =>
          rw [hmany (by rw [hl]; simp)] at hr
          cases hr
        | nil =>
          obtain ⟨node, hnode⟩ := hex d (by rw [hl]; simp)
          cases hk : node.is_type_parm with
          | false =>
            rw [hother d node hl hnode hk] at hr
            cases hr
          | true =>
            cases node <;> simp [Decl_node.is_type_parm] at hk
            exact ⟨d, _, _, rfl, hnode⟩
    · rintro ⟨d, n, t, hl, hd⟩
      exact ⟨_, hok d n t hl hd⟩
  refine ⟨hiff, ?_, hempty, hmany, hother, ?_⟩
  · intro d n t hl hd
    refine ⟨_, _, hok d n t hl hd, ?_, ?_, rfl⟩
    · exact (Builder.make_type_spec _ (.Typename_type d)).2.1
    · exact (Builder.make_type_spec _ (.Typename_type d)).2.2.1
  · cases hl : lookup tok.symbol with
    | nil => exact Or.inl ⟨_, hempty hl⟩
    | cons d rest =>
      cases rest with
      | cons d2 rest2 => exact Or.inl ⟨_, hmany (by rw [hl]; simp)⟩
      | nil =>
        obtain ⟨node, hnode⟩ := hex d (by rw [hl]; simp)
        cases hk : node.is_type_parm with
        | false => exact Or.inl ⟨_, hother d node hl hnode hk⟩
        | true =>
          cases node <;> simp [Decl_node.is_type_parm] at hk
          exact Or.inr ⟨_, hok d _ _ hl hnode⟩

/-- A token that does not carry an identifier fails the assertion of
`get_id` before any lookup. -/
theorem Parser.on_type_alias_not_identifier (p : Parser) (lookup : Symbol → List Addr)
    (tok : Token) (hid : tok.symbol.is_identifier = false) :
    p.on_type_alias lookup tok = .error .assertion := by
  unfold Parser.on_type_alias Builder.get_id_token Builder.get_id
  rw [hid]
  rfl

/-- Witness for claim C21: the identifier `T` in a scope where declaration 0
is a type parameter and declaration 1 a variable; the lookup finds one, none,
two, or the wrong one. -/
theorem on_type_alias_resolves_witness :
    Parser.on_type_alias
      { build := { types := [], decls := [.Type_parm 5 none, .Variable_decl 6 0 0] },
        state := { template_parms := none, template_cons := none } }
      (fun _ => [0]) { symbol := { is_identifier := true, spelling := "T" } } =
      .ok (0, { build := { types := [.Typename_type 0],
                           decls := [.Type_parm 5 none, .Variable_decl 6 0 0],
                           names := [.Simple_id { is_identifier := true, spelling := "T" }] },
                state := { template_parms := none, template_cons := none } }) ∧
    Parser.on_type_alias
      { build := { types := [], decls := [.Type_parm 5 none, .Variable_decl 6 0 0] },
        state := { template_parms := none, template_cons := none } }
      (fun _ => []) { symbol := { is_identifier := true, spelling := "T" } } =
      .error (.lookup_error "no matching declaration for 'T'") ∧
    Parser.on_type_alias
      { build := { types := [], decls := [.Type_parm 5 none, .Variable_decl 6 0 0] },
        state := { template_parms := none, template_cons := none } }
      (fun _ => [0, 1]) { symbol := { is_identifier := true, spelling := "T" } } =
      .error (.lookup_error "lookup of 'T' is ambiguous") ∧
    Parser.on_type_alias
      { build := { types := [], decls := [.Type_parm 5 none, .Variable_decl 6 0 0] },
        state := { template_parms := none, template_cons := none } }
      (fun _ => [1]) { symbol := { is_identifier := true, spelling := "T" } } =
      .error (.lookup_error "'T' does not name a type") ∧
    ((∃ r, Parser.on_type_alias
        { build := { types := [], decls := [.Type_parm 5 none, .Variable_decl 6 0 0] },
          state := { template_parms := none, template_cons := none } }
        (fun _ => [0]) { symbol := { is_identifier := true, spelling := "T" } } = .ok r) ↔
      ∃ (d n : Addr) (t : Option Addr),
        (fun _ : Symbol => [0]) { is_identifier := true, spelling := "T" } = [d] ∧
        (Builder.decls { types := [], decls := [.Type_parm 5 none, .Variable_decl 6 0 0] })[d]? =
          some (.Type_parm n t)) :=
  ⟨by decide, by decide, by decide, by decide,
   (on_type_alias_resolves
      { build := { types := [], decls := [.Type_parm 5 none, .Variable_decl 6 0 0] },
        state := { template_parms := none, template_cons := none } }
      (fun _ => [0]) { symbol := { is_identifier := true, spelling := "T" } } rfl
      (by
        intro d hd
        simp at hd
        subst hd
        exact ⟨_, rfl⟩)).1⟩

/-! ### The pending constraint and the integer payload -/

/-- Claim C22.  With a constraint `c` pending and no parameter list pending,
`templatize_declaration(d)` returns `d` and changes nothing, so `c` stays
pending.  Once a parameter list `P` is pending (in any parser `q` whose
pending constraint is still `c`), the next call builds the `Template_decl`
over `P` with the constraint `c` and clears both.  After every call no
parameter list is pending. -/
theorem pending_constraint_waits_for_parms (p q : Parser) (c d d2 : Addr) (P : List Addr)
    (hp : p.state.template_parms = none) (hc : p.state.template_cons = some c)
    (hq : q.state = { p.state with template_parms := some P }) :
    p.templatize_declaration d = (d, p) ∧
    (p.templatize_declaration d).2.state.template_cons = some c ∧
    (q.templatize_declaration d2).1 = q.build.decls.length ∧
    (q.templatize_declaration d2).2.build.decls =
      q.build.decls ++ [.Template_decl P d2 (some c)] ∧
    (q.templatize_declaration d2).2.state =
      { template_parms := none, template_cons := none } ∧
    (p.templatize_declaration d).2.state.template_parms = none ∧
    (q.templatize_declaration d2).2.state.template_parms = none := by
  have h1 : p.templatize_declaration d = (d, p) := by
    unfold Parser.templatize_declaration
    rw [hp]
  have hqp : q.state.template_parms = some P := by rw [hq]
  have hqc : q.state.template_cons = some c := by rw [hq]; exact hc
  obtain ⟨h2, h3, _, h4⟩ := Parser.templatize_declaration_pending q d2 P hqp
  rw [hqc] at h3
  refine ⟨h1, ?_, h2, h3, h4, ?_, ?_⟩
  · rw [h1]; exact hc
  · rw [h1]; exact hp
  · rw [h4]

/-- Witness for claim C22: the constraint 9 is pending without a parameter
list; the first call returns its declaration, the call after the list
`[7, 8]` has become pending attaches 9 to the template. -/
theorem pending_constraint_waits_for_parms_witness :
    Parser.templatize_declaration
      { build := { types := [], decls := [.Variable_decl 1 2 3] },
        state := { template_parms := none, template_cons := some 9 } } 0 =
      (0, { build := { types := [], decls := [.Variable_decl 1 2 3] },
            state := { template_parms := none, template_cons := some 9 } }) ∧
    Parser.templatize_declaration
      { build := { types := [], decls := [.Variable_decl 1 2 3] },
        state := { template_parms := some [7, 8], template_cons := some 9 } } 0 =
      (1, { build := { types := [],
                       decls := [.Variable_decl 1 2 3, .Template_decl [7, 8] 0 (some 9)] },
            state := { template_parms := none, template_cons := none } }) :=
  ⟨(pending_constraint_waits_for_parms
      { build := { types := [], decls := [.Variable_decl 1 2 3] },
        state := { template_parms := none, template_cons := some 9 } }
      { build := { types := [], decls := [.Variable_decl 1 2 3] },
        state := { template_parms := some [7, 8], template_cons := some 9 } }
      9 0 0 [7, 8] rfl rfl rfl).1,
   by decide⟩

theorem int64_cast_of_small (n : Int) (h0 : -2 ^ 63 ≤ n) (h1 : n < 2 ^ 63) :
    int64_cast n = n := by
  show ((n + 2 ^ 63) % 2 ^ 64 - 2 ^ 63 : Int) = n
  omega

theorem int64_cast_of_large (n : Int) (h0 : 2 ^ 63 ≤ n) (h1 : n < 2 ^ 64) :
    int64_cast n = n - 2 ^ 64 := by
  show ((n + 2 ^ 63) % 2 ^ 64 - 2 ^ 63 : Int) = n - 2 ^ 64
  omega

theorem int64_cast_range (n : Int) : -2 ^ 63 ≤ int64_cast n ∧ int64_cast n < 2 ^ 63 := by
  show (-2 ^ 63 : Int) ≤ (n + 2 ^ 63) % 2 ^ 64 - 2 ^ 63 ∧
    ((n + 2 ^ 63) % 2 ^ 64 - 2 ^ 63 : Int) < 2 ^ 63
  omega

/-- Claim C23.  An integer Value holds a 64-bit signed integer.  For an
`unsigned long` `n` (64 bits), `get_integer(Value(n))` is `n` when
`n < 2^63` and `n - 2^64` when `n ≥ 2^63`; for an `int` `i` (32 bits) it is
`i`; in both cases the kind is `integer_value`. -/
theorem integer_payload_is_int64 (n : Nat) (i : Int) (hn : n < 2 ^ 64)
    (hi0 : -2 ^ 31 ≤ i) (hi1 : i < 2 ^ 31) :
    (Value.of_unsigned_long n).kind = .integer_value ∧
    (n < 2 ^ 63 → (Value.of_unsigned_long n).get_integer = .ok (n : Int)) ∧
    (2 ^ 63 ≤ n → (Value.of_unsigned_long n).get_integer = .ok ((n : Int) - 2 ^ 64)) ∧
    (Value.of_int i).kind = .integer_value ∧
    (Value.of_int i).get_integer = .ok i ∧
    (∀ z, (Value.of_unsigned_long n).get_integer = .ok z → -2 ^ 63 ≤ z ∧ z < 2 ^ 63) ∧
    (∀ z, (Value.of_int i).get_integer = .ok z → -2 ^ 63 ≤ z ∧ z < 2 ^ 63) := by
  have hget : ∀ m : Int, Value.get_integer { k := .integer_value, r := .int_ (int64_cast m) } =
      .ok (int64_cast m) := fun _ => rfl
  refine ⟨rfl, ?_, ?_, rfl, ?_, ?_, ?_⟩
  · intro h
    show Value.get_integer { k := .integer_value, r := .int_ (int64_cast n) } = _
    rw [hget, int64_cast_of_small (n : Int) (by omega) (by omega)]
  · intro h
    show Value.get_integer { k := .integer_value, r := .int_ (int64_cast n) } = _
    rw [hget, int64_cast_of_large (n : Int) (by omega) (by omega)]
  · show Value.get_integer { k := .integer_value, r := .int_ (int64_cast i) } = _
    rw [hget, int64_cast_of_small i (by omega) (by omega)]
  · intro z hz
    have hz2 : Value.get_integer { k := .integer_value, r := .int_ (int64_cast n) } = .ok z := hz
    rw [hget] at hz2
    rw [← Except.ok.inj hz2]
    exact int64_cast_range _
  · intro z hz
    have hz2 : Value.get_integer { k := .integer_value, r := .int_ (int64_cast i) } = .ok z := hz
    rw [hget] at hz2
    rw [← Except.ok.inj hz2]
    exact int64_cast_range _

/-- Witness for claim C23: the largest `unsigned long` reads back as -1, and
the `int` -5 as -5. -/
theorem integer_payload_is_int64_witness :
    (Value.of_unsigned_long 18446744073709551615).get_integer = .ok (-1) ∧
    (Value.of_unsigned_long 5).get_integer = .ok 5 ∧
    (Value.of_int (-5)).get_integer = .ok (-5) ∧
    (Value.of_unsigned_long 18446744073709551615).get_integer =
      .ok (((18446744073709551615 : Nat) : Int) - 2 ^ 64) :=
  ⟨by simp [Value.of_unsigned_long, Value.get_integer, Value.is_integer, int64_cast],
   by simp [Value.of_unsigned_long, Value.get_integer, Value.is_integer, int64_cast],
   by simp [Value.of_int, Value.get_integer, Value.is_integer, int64_cast],
   (integer_payload_is_int64 18446744073709551615 (-5) (by norm_num) (by norm_num)
      (by norm_num)).2.2.1 (by norm_num)⟩

end banjo
